import Mathlib

/-!
Verification of the scoped query compiler and result-reconstruction engine of
the openchoreo/community-modules observability services, as a shallow
embedding in Lean 4.

The embedding follows the Go sources:
  * `quoteIdentifier`, `escapeSQLString`, `mapOperator`, `generateAlertConfig`,
    `generateWorkflowLogsQuery`, `generateComponentLogsQuery`
    (logs module, openobserve query generation),
  * `generateTracesListQuery`, `generateSpansListQuery`,
    `generateSpanDetailQuery`, `buildFilterConditions`
    (tracing module, openobserve query generation),
  * `Client.executeSearchQuery` in both modules (status-check stage),
  * `Client.GetTraces` (grouping of span rows into trace summaries),
  * `Client.getAlertIDByName` (alert name → id resolution),
  * `LogsHandler.QueryLogs` (scope dispatch and namespace validation).

Go strings are modelled as Lean `String`, Go `int`/`int64` as `Int`
(no arithmetic in the modelled fragments can overflow 64 bits: the only
arithmetic is `maxEnd - minStart` on timestamps and the `limit` default),
`time.Time` values as their integer epoch offsets in the unit used at the
relevant call site, and fallible functions as `Except`.
-/

namespace CommunityModules

/-! ## Escaping / quoting primitives (logs module, query generation file) -/

/-- One step of Go's `strings.ReplaceAll(s, c, cc)` for a single-character
pattern replaced by that character doubled: every occurrence of `target` in
the character list is doubled, all other characters are kept.  Go's
`ReplaceAll` with a one-character pattern is exactly this character-wise
expansion. -/
def doubleChar (target : Char) : List Char → List Char
  | [] => []
  | c :: rest =>
    if c = target then c :: c :: doubleChar target rest
    else c :: doubleChar target rest

/-- Go `escapeSQLString`: first doubles every backslash
(`strings.ReplaceAll(value, "\\", "\\\\")`), then doubles every single quote
(`strings.ReplaceAll(value, "'", "''")`). -/
def escapeSQLString (value : String) : String :=
  String.mk (doubleChar '\'' (doubleChar '\\' value.data))

/-- Go `quoteIdentifier`: wraps the identifier in double quotes and doubles
any embedded double quote (`"\"" + strings.ReplaceAll(id, "\"", "\"\"") + "\""`). -/
def quoteIdentifier (identifier : String) : String :=
  String.mk ('"' :: doubleChar '"' identifier.data ++ ['"'])

/-- Modelled from the spec: the reference literal-unescaper for the backend's
single-quoted string literals (spec §4.1/§8; this reference parser is not
part of the repository's code).  It consumes the characters after an opening
quote: `\\` denotes a backslash, `''` denotes a single quote, a lone single
quote closes the literal (and must end the input for a strict full parse),
any other character denotes itself, and a lone backslash or an unterminated
literal is rejected. -/
def unquoteLiteralChars : List Char → Option (List Char)
  | [] => none
  | c :: rest =>
    if c = '\\' then
      match rest with
      | c2 :: rest2 =>
        if c2 = '\\' then (unquoteLiteralChars rest2).map (fun l => '\\' :: l)
        else none
      | [] => none
    else if c = '\'' then
      match rest with
      | c2 :: rest2 =>
        if c2 = '\'' then (unquoteLiteralChars rest2).map (fun l => '\'' :: l)
        else none
      | [] => some []
    else
      (unquoteLiteralChars rest).map (fun l => c :: l)

/-- Modelled from the spec: parse a complete single-quoted literal `'...'`,
returning the string it denotes, rejecting anything that is not exactly one
well-formed literal. -/
def parseSingleQuotedLiteral (s : String) : Option String :=
  match s.data with
  | c :: rest => if c = '\'' then (unquoteLiteralChars rest).map String.mk else none
  | [] => none

/-! ## Query builder data model

Go parameter structs, with `time.Time` fields replaced by the microsecond
epoch value the generators read off them via `UnixMicro()`. -/

/-- Go `ComponentLogsParams` (logs module). -/
structure ComponentLogsParams where
  Namespace : String
  ComponentIDs : List String
  EnvironmentID : String
  ProjectID : String
  StartTime : Int
  EndTime : Int
  SearchPhrase : String
  LogLevels : List String
  Limit : Int
  SortOrder : String
deriving DecidableEq

/-- Go `WorkflowLogsParams` (logs module). -/
structure WorkflowLogsParams where
  Namespace : String
  WorkflowRunName : String
  StartTime : Int
  EndTime : Int
  SearchPhrase : String
  LogLevels : List String
  Limit : Int
  SortOrder : String
deriving DecidableEq

/-- Go `Scope` (tracing module). -/
structure Scope where
  Namespace : String
  ProjectID : String
  ComponentID : String
  EnvironmentID : String
deriving DecidableEq

/-- Go `TracesQueryParams` (tracing module).  The Go field `Sort` is named
`SortDir` here because `Sort` is a Lean keyword. -/
structure TracesQueryParams where
  StartTime : Int
  EndTime : Int
  Limit : Int
  SortDir : String
  Scope : Scope
  TraceID : String
  SpanID : String
deriving DecidableEq

/-- The backend query document produced by the generators: the `query` object
Go marshals to JSON (`sql`, `start_time`, `end_time`, `from`, `size`).  The
Go key `from` is a Lean keyword and is named `qfrom` here. -/
structure QueryDoc where
  sql : String
  start_time : Int
  end_time : Int
  qfrom : Int
  size : Int
deriving DecidableEq

/-- Go `strings.Join(elems, sep)`: the elements interleaved with the
separator, empty string for an empty list. -/
def stringsJoin : List String → String → String
  | [], _ => ""
  | [s], _ => s
  | s :: rest, sep => s ++ sep ++ stringsJoin rest sep

/-- The sort-order clause appended by both logs generators: ascending exactly
for the two whitelisted literals `"ASC"` and `"asc"`, descending otherwise
(translation of the identical inline `if` in `generateComponentLogsQuery`
and `generateWorkflowLogsQuery`). -/
def logsOrderClause (sortOrder : String) : String :=
  if sortOrder = "ASC" ∨ sortOrder = "asc" then " ORDER BY _timestamp ASC"
  else " ORDER BY _timestamp DESC"

/-- Go `limit := params.Limit; if limit <= 0 { limit = 100 }`. -/
def defaultLimit (limit : Int) : Int :=
  if limit ≤ 0 then 100 else limit

/-! ## Workflow logs query generation (Go `generateWorkflowLogsQuery`) -/

/-- The `conditions` slice built by `generateWorkflowLogsQuery`. -/
def workflowLogsConditions (p : WorkflowLogsParams) : List String :=
  (if p.Namespace ≠ "" then
    ["kubernetes_namespace_name = 'openchoreo-ci-" ++ escapeSQLString p.Namespace ++ "'"]
  else [])
  ++ (if p.WorkflowRunName ≠ "" then
    ["kubernetes_labels_workflows_argoproj_io_workflow = '"
      ++ escapeSQLString p.WorkflowRunName ++ "'"]
  else [])
  ++ (if p.SearchPhrase ≠ "" then
    ["log LIKE '%" ++ escapeSQLString p.SearchPhrase ++ "%'"]
  else [])
  ++ (if p.LogLevels ≠ [] then
    ["(" ++ stringsJoin (p.LogLevels.map
        (fun level => "logLevel = '" ++ escapeSQLString level ++ "'")) " OR " ++ ")"]
  else [])

/-- The SQL text built by `generateWorkflowLogsQuery`. -/
def workflowLogsSQL (p : WorkflowLogsParams) (stream : String) : String :=
  let conditions := workflowLogsConditions p
  let sql := "SELECT * FROM " ++ quoteIdentifier stream
  let sql := if conditions.length > 0 then
    sql ++ " WHERE " ++ stringsJoin conditions " AND " else sql
  sql ++ logsOrderClause p.SortOrder

/-- Go `generateWorkflowLogsQuery` (the generated query document; the
function itself cannot fail before JSON marshalling). -/
def generateWorkflowLogsQuery (p : WorkflowLogsParams) (stream : String) : QueryDoc :=
  { sql := workflowLogsSQL p stream
    start_time := p.StartTime
    end_time := p.EndTime
    qfrom := 0
    size := defaultLimit p.Limit }

/-! ## Component logs query generation (Go `generateComponentLogsQuery`) -/

/-- The `conditions` slice built by `generateComponentLogsQuery` (after the
namespace guard; the namespace condition is appended unconditionally). -/
def componentLogsConditions (p : ComponentLogsParams) : List String :=
  ["kubernetes_labels_openchoreo_dev_namespace = '" ++ escapeSQLString p.Namespace ++ "'"]
  ++ (if p.ProjectID ≠ "" then
    ["kubernetes_labels_openchoreo_dev_project_uid = '" ++ escapeSQLString p.ProjectID ++ "'"]
  else [])
  ++ (if p.EnvironmentID ≠ "" then
    ["kubernetes_labels_openchoreo_dev_environment_uid = '"
      ++ escapeSQLString p.EnvironmentID ++ "'"]
  else [])
  ++ (if p.ComponentIDs ≠ [] then
    ["(" ++ stringsJoin (p.ComponentIDs.map
        (fun id => "kubernetes_labels_openchoreo_dev_component_uid = '"
          ++ escapeSQLString id ++ "'")) " OR " ++ ")"]
  else [])
  ++ (if p.SearchPhrase ≠ "" then
    ["log LIKE '%" ++ escapeSQLString p.SearchPhrase ++ "%'"]
  else [])
  ++ (if p.LogLevels ≠ [] then
    ["(" ++ stringsJoin (p.LogLevels.map
        (fun level => "logLevel = '" ++ escapeSQLString level ++ "'")) " OR " ++ ")"]
  else [])

/-- The SQL text built by `generateComponentLogsQuery` after its namespace
guard. -/
def componentLogsSQL (p : ComponentLogsParams) (stream : String) : String :=
  let conditions := componentLogsConditions p
  let sql := "SELECT * FROM " ++ quoteIdentifier stream
  let sql := if conditions.length > 0 then
    sql ++ " WHERE " ++ stringsJoin conditions " AND " else sql
  sql ++ logsOrderClause p.SortOrder

/-- Go `generateComponentLogsQuery`: rejects an empty namespace, otherwise
produces the query document. -/
def generateComponentLogsQuery (p : ComponentLogsParams) (stream : String) :
    Except String QueryDoc :=
  if p.Namespace = "" then
    .error "namespace is required for component log queries"
  else
    .ok { sql := componentLogsSQL p stream
          start_time := p.StartTime
          end_time := p.EndTime
          qfrom := 0
          size := defaultLimit p.Limit }

/-! ## Tracing query generation (Go tracing module) -/

/-- Go `buildFilterConditions` (tracing module). -/
def buildFilterConditions (p : TracesQueryParams) : List String :=
  (if p.Scope.Namespace ≠ "" then
    ["service_openchoreo_dev_namespace = '" ++ escapeSQLString p.Scope.Namespace ++ "'"]
  else [])
  ++ (if p.Scope.ProjectID ≠ "" then
    ["service_openchoreo_dev_project_uid = '" ++ escapeSQLString p.Scope.ProjectID ++ "'"]
  else [])
  ++ (if p.Scope.EnvironmentID ≠ "" then
    ["service_openchoreo_dev_environment_uid = '"
      ++ escapeSQLString p.Scope.EnvironmentID ++ "'"]
  else [])
  ++ (if p.Scope.ComponentID ≠ "" then
    ["service_openchoreo_dev_component_uid = '" ++ escapeSQLString p.Scope.ComponentID ++ "'"]
  else [])

/-- The SQL text built by `generateTracesListQuery` (the stream name is
interpolated directly via `fmt.Sprintf`; it is configuration, not caller
input). -/
def tracesListSQL (p : TracesQueryParams) (stream : String) : String :=
  let sql := "SELECT trace_id, span_id, operation_name, span_kind, start_time, end_time, reference_parent_span_id FROM "
    ++ stream
  let conditions := buildFilterConditions p
  let sql := if conditions.length > 0 then
    sql ++ " WHERE " ++ stringsJoin conditions " AND " else sql
  sql ++ " ORDER BY start_time"

/-- Go `generateTracesListQuery`: unbounded (`size = -1`) span listing. -/
def generateTracesListQuery (p : TracesQueryParams) (stream : String) : QueryDoc :=
  { sql := tracesListSQL p stream
    start_time := p.StartTime
    end_time := p.EndTime
    qfrom := 0
    size := -1 }

/-- The sort clause of `generateSpansListQuery` (`start_time` column). -/
def spansOrderClause (sort : String) : String :=
  if sort = "asc" ∨ sort = "ASC" then " ORDER BY start_time ASC"
  else " ORDER BY start_time DESC"

/-- The SQL text built by `generateSpansListQuery`. -/
def spansListSQL (p : TracesQueryParams) (stream : String) : String :=
  let conditions := ["trace_id = '" ++ escapeSQLString p.TraceID ++ "'"]
  "SELECT span_id, operation_name, span_kind, start_time, end_time, end_time - start_time as duration, reference_parent_span_id FROM "
    ++ stream ++ " WHERE " ++ stringsJoin conditions " AND "
    ++ spansOrderClause p.SortDir

/-- Go `generateSpansListQuery`. -/
def generateSpansListQuery (p : TracesQueryParams) (stream : String) : QueryDoc :=
  { sql := spansListSQL p stream
    start_time := p.StartTime
    end_time := p.EndTime
    qfrom := 0
    size := defaultLimit p.Limit }

/-- The SQL text built by `generateSpanDetailQuery`. -/
def spanDetailSQL (p : TracesQueryParams) (stream : String) : String :=
  let conditions := ["trace_id = '" ++ escapeSQLString p.TraceID ++ "'",
    "span_id = '" ++ escapeSQLString p.SpanID ++ "'"]
  "SELECT * FROM " ++ stream ++ " WHERE " ++ stringsJoin conditions " AND "

/-- Go `generateSpanDetailQuery` (fixed whole-history window, single hit). -/
def generateSpanDetailQuery (p : TracesQueryParams) (stream : String) : QueryDoc :=
  { sql := spanDetailSQL p stream
    start_time := 1
    end_time := 9223372036854775807 / 2
    qfrom := 0
    size := 1 }

/-! ## Alert rule translation (Go `mapOperator`, `generateAlertConfig`) -/

/-- Go `mapOperator`: maps the API operator to the backend SQL comparison
operator, any other value is an error. -/
def mapOperator (op : String) : Except String String :=
  if op = "gt" then .ok ">"
  else if op = "gte" then .ok ">="
  else if op = "lt" then .ok "<"
  else if op = "lte" then .ok "<="
  else if op = "eq" then .ok "="
  else if op = "neq" then .ok "!="
  else .error ("unsupported operator \"" ++ op
    ++ "\": must be one of gt, gte, lt, lte, eq, neq")

/-- The alert count query built by `generateAlertConfig`
(`fmt.Sprintf("SELECT count(*) as %s FROM %s WHERE str_match(log, '%s')", ...)`). -/
def alertQuerySQL (searchPattern : String) (stream : String) : String :=
  "SELECT count(*) as match_count FROM " ++ quoteIdentifier stream
    ++ " WHERE str_match(log, '" ++ escapeSQLString searchPattern ++ "')"

/-! ## Fragment decomposition of the generated SQL texts

To state the injection-safety invariant (every caller-controlled string
reaches the query text only through `escapeSQLString`/`quoteIdentifier`), each
generated SQL text is re-expressed as the rendering of a list of fragments:
static SQL pieces, escaped literals, quoted identifiers, and raw
configuration values.  The fragment lists below are proof artifacts mirroring
the structure of the string builders above; the theorems prove that the
rendering coincides with the builders and that every fragment is safe. -/

/-- A fragment of a generated SQL text. -/
inductive Frag where
  | static (s : String)
  | lit (v : String)
  | ident (v : String)
  | raw (v : String)
deriving DecidableEq

/-- Rendering of one fragment: static text verbatim, literals through
`escapeSQLString`, identifiers through `quoteIdentifier`, raw configuration
values verbatim. -/
def Frag.render : Frag → String
  | .static s => s
  | .lit v => escapeSQLString v
  | .ident v => quoteIdentifier v
  | .raw v => v

/-- Concatenate the renderings of a fragment list. -/
def renderFrags : List Frag → String
  | [] => ""
  | f :: fs => f.render ++ renderFrags fs

/-- Fragment-level counterpart of `stringsJoin`. -/
def fragsJoin : List (List Frag) → String → List Frag
  | [], _ => []
  | [g], _ => g
  | g :: rest, sep => g ++ [Frag.static sep] ++ fragsJoin rest sep

/-- A scalar predicate fragment: static prefix, escaped caller value, static
suffix. -/
def litCond (pre v post : String) : List Frag :=
  [Frag.static pre, Frag.lit v, Frag.static post]

/-- A parenthesized OR-group of predicate fragments. -/
def orGroupFrags (items : List (List Frag)) : List Frag :=
  [Frag.static "("] ++ fragsJoin items " OR " ++ [Frag.static ")"]

/-- The fixed whitelist of static SQL fragments used across all six
generators.  It is a closed constant: no caller data occurs in it. -/
def sqlStaticFragments : List String :=
  ["SELECT * FROM ", " WHERE ", " AND ", " OR ", "(", ")", "'", "%'",
   "kubernetes_labels_openchoreo_dev_namespace = '",
   "kubernetes_labels_openchoreo_dev_project_uid = '",
   "kubernetes_labels_openchoreo_dev_environment_uid = '",
   "kubernetes_labels_openchoreo_dev_component_uid = '",
   "log LIKE '%", "logLevel = '",
   "kubernetes_namespace_name = 'openchoreo-ci-",
   "kubernetes_labels_workflows_argoproj_io_workflow = '",
   " ORDER BY _timestamp ASC", " ORDER BY _timestamp DESC",
   "SELECT trace_id, span_id, operation_name, span_kind, start_time, end_time, reference_parent_span_id FROM ",
   " ORDER BY start_time",
   "service_openchoreo_dev_namespace = '",
   "service_openchoreo_dev_project_uid = '",
   "service_openchoreo_dev_environment_uid = '",
   "service_openchoreo_dev_component_uid = '",
   "SELECT span_id, operation_name, span_kind, start_time, end_time, end_time - start_time as duration, reference_parent_span_id FROM ",
   "trace_id = '", "span_id = '",
   " ORDER BY start_time ASC", " ORDER BY start_time DESC",
   "SELECT count(*) as match_count FROM ", " WHERE str_match(log, '", "')"]

/-- Safety of one fragment: static pieces must come from the fixed whitelist,
escaped literals from the caller-controlled strings of the request,
quoted identifiers and raw pieces from the configuration values listed. -/
def FragSafe (callers idents raws : List String) : Frag → Prop
  | .static s => s ∈ sqlStaticFragments
  | .lit v => v ∈ callers
  | .ident v => v ∈ idents
  | .raw v => v ∈ raws

/-! ### Workflow logs fragments -/

/-- The caller-controlled strings of a workflow logs request. -/
def workflowCallers (p : WorkflowLogsParams) : List String :=
  [p.Namespace, p.WorkflowRunName, p.SearchPhrase] ++ p.LogLevels

/-- Fragment view of `workflowLogsConditions`. -/
def workflowLogsCondFrags (p : WorkflowLogsParams) : List (List Frag) :=
  (if p.Namespace ≠ "" then
    [litCond "kubernetes_namespace_name = 'openchoreo-ci-" p.Namespace "'"] else [])
  ++ (if p.WorkflowRunName ≠ "" then
    [litCond "kubernetes_labels_workflows_argoproj_io_workflow = '" p.WorkflowRunName "'"]
  else [])
  ++ (if p.SearchPhrase ≠ "" then [litCond "log LIKE '%" p.SearchPhrase "%'"] else [])
  ++ (if p.LogLevels ≠ [] then
    [orGroupFrags (p.LogLevels.map (fun level => litCond "logLevel = '" level "'"))]
  else [])

/-- Fragment view of `workflowLogsSQL`. -/
def workflowLogsFrags (p : WorkflowLogsParams) (stream : String) : List Frag :=
  [Frag.static "SELECT * FROM ", Frag.ident stream]
  ++ (if (workflowLogsCondFrags p).length > 0 then
    [Frag.static " WHERE "] ++ fragsJoin (workflowLogsCondFrags p) " AND "
  else [])
  ++ [Frag.static (logsOrderClause p.SortOrder)]

/-! ### Component logs fragments -/

/-- The caller-controlled strings of a component logs request. -/
def componentCallers (p : ComponentLogsParams) : List String :=
  [p.Namespace, p.ProjectID, p.EnvironmentID, p.SearchPhrase]
    ++ p.ComponentIDs ++ p.LogLevels

/-- Fragment view of `componentLogsConditions`. -/
def componentLogsCondFrags (p : ComponentLogsParams) : List (List Frag) :=
  [litCond "kubernetes_labels_openchoreo_dev_namespace = '" p.Namespace "'"]
  ++ (if p.ProjectID ≠ "" then
    [litCond "kubernetes_labels_openchoreo_dev_project_uid = '" p.ProjectID "'"] else [])
  ++ (if p.EnvironmentID ≠ "" then
    [litCond "kubernetes_labels_openchoreo_dev_environment_uid = '" p.EnvironmentID "'"]
  else [])
  ++ (if p.ComponentIDs ≠ [] then
    [orGroupFrags (p.ComponentIDs.map
        (fun id => litCond "kubernetes_labels_openchoreo_dev_component_uid = '" id "'"))]
  else [])
  ++ (if p.SearchPhrase ≠ "" then [litCond "log LIKE '%" p.SearchPhrase "%'"] else [])
  ++ (if p.LogLevels ≠ [] then
    [orGroupFrags (p.LogLevels.map (fun level => litCond "logLevel = '" level "'"))]
  else [])

/-- Fragment view of `componentLogsSQL`. -/
def componentLogsFrags (p : ComponentLogsParams) (stream : String) : List Frag :=
  [Frag.static "SELECT * FROM ", Frag.ident stream]
  ++ (if (componentLogsCondFrags p).length > 0 then
    [Frag.static " WHERE "] ++ fragsJoin (componentLogsCondFrags p) " AND "
  else [])
  ++ [Frag.static (logsOrderClause p.SortOrder)]

/-! ### Traces list fragments -/

/-- The caller-controlled strings of a traces list request. -/
def tracesCallers (p : TracesQueryParams) : List String :=
  [p.Scope.Namespace, p.Scope.ProjectID, p.Scope.EnvironmentID, p.Scope.ComponentID]

/-- Fragment view of `buildFilterConditions`. -/
def tracesCondFrags (p : TracesQueryParams) : List (List Frag) :=
  (if p.Scope.Namespace ≠ "" then
    [litCond "service_openchoreo_dev_namespace = '" p.Scope.Namespace "'"] else [])
  ++ (if p.Scope.ProjectID ≠ "" then
    [litCond "service_openchoreo_dev_project_uid = '" p.Scope.ProjectID "'"] else [])
  ++ (if p.Scope.EnvironmentID ≠ "" then
    [litCond "service_openchoreo_dev_environment_uid = '" p.Scope.EnvironmentID "'"]
  else [])
  ++ (if p.Scope.ComponentID ≠ "" then
    [litCond "service_openchoreo_dev_component_uid = '" p.Scope.ComponentID "'"] else [])

/-- Fragment view of `tracesListSQL`.  The stream name is a raw configuration
value here because the Go code interpolates it without quoting. -/
def tracesListFrags (p : TracesQueryParams) (stream : String) : List Frag :=
  [Frag.static "SELECT trace_id, span_id, operation_name, span_kind, start_time, end_time, reference_parent_span_id FROM ",
    Frag.raw stream]
  ++ (if (tracesCondFrags p).length > 0 then
    [Frag.static " WHERE "] ++ fragsJoin (tracesCondFrags p) " AND "
  else [])
  ++ [Frag.static " ORDER BY start_time"]

/-! ### Spans list, span detail and alert fragments -/

/-- Fragment view of `spansListSQL`. -/
def spansListFrags (p : TracesQueryParams) (stream : String) : List Frag :=
  [Frag.static "SELECT span_id, operation_name, span_kind, start_time, end_time, end_time - start_time as duration, reference_parent_span_id FROM ",
    Frag.raw stream, Frag.static " WHERE "]
  ++ litCond "trace_id = '" p.TraceID "'"
  ++ [Frag.static (spansOrderClause p.SortDir)]

/-- Fragment view of `spanDetailSQL`. -/
def spanDetailFrags (p : TracesQueryParams) (stream : String) : List Frag :=
  [Frag.static "SELECT * FROM ", Frag.raw stream, Frag.static " WHERE "]
  ++ litCond "trace_id = '" p.TraceID "'"
  ++ [Frag.static " AND "]
  ++ litCond "span_id = '" p.SpanID "'"

/-- Fragment view of `alertQuerySQL`. -/
def alertQueryFrags (searchPattern : String) (stream : String) : List Frag :=
  [Frag.static "SELECT count(*) as match_count FROM ", Frag.ident stream,
    Frag.static " WHERE str_match(log, '", Frag.lit searchPattern,
    Frag.static "')"]

/-! ## Trace reconstruction (Go `Client.GetTraces`, tracing module)

A raw OpenObserve hit is modelled by the fields `GetTraces` reads from it:
each field is `some v` when the key is present with the asserted Go type and
`none` otherwise (a failed Go type assertion with `v, ok := hit[k].(T)`
leaves the target at its zero value and skips the guarded block). -/

/-- The fields of a raw span hit that `GetTraces` inspects. -/
structure SpanRow where
  trace_id : Option String
  span_id : Option String
  operation_name : Option String
  span_kind : Option String
  start_time : Option Int
  end_time : Option Int
  reference_parent_span_id : Option String
deriving DecidableEq

/-- Go `traceID, _ := hit["trace_id"].(string)`: the empty string when the
key is absent or not a string. -/
def rowTraceID (row : SpanRow) : String := row.trace_id.getD ""

/-- The Go `traceAgg` accumulator (the embedded `TraceEntry` plus
`minStart`/`maxEnd`), flattened. -/
structure TraceAgg where
  traceID : String
  spanCount : Nat
  rootSpanID : String
  rootSpanName : String
  rootSpanKind : String
  minStart : Int
  maxEnd : Int
deriving DecidableEq

/-- A freshly allocated `traceAgg` for the given trace id (Go zero values). -/
def emptyAgg (traceID : String) : TraceAgg :=
  { traceID := traceID, spanCount := 0, rootSpanID := "", rootSpanName := "",
    rootSpanKind := "", minStart := 0, maxEnd := 0 }

/-- Go `agg.entry.SpanCount++`. -/
def bumpCount (agg : TraceAgg) : TraceAgg :=
  { agg with spanCount := agg.spanCount + 1 }

/-- Go `if v, ok := hit["start_time"].(json.Number); ok { startTime, _ =
v.Int64(); if agg.minStart == 0 || startTime < agg.minStart { agg.minStart =
startTime } }` — note the `0` sentinel for "unset". -/
def updateMinStart (agg : TraceAgg) : Option Int → TraceAgg
  | some st =>
    if agg.minStart = 0 ∨ st < agg.minStart then { agg with minStart := st } else agg
  | none => agg

/-- Go `if v, ok := hit["end_time"].(json.Number); ok { endTime, _ =
v.Int64(); if endTime > agg.maxEnd { agg.maxEnd = endTime } }`. -/
def updateMaxEnd (agg : TraceAgg) : Option Int → TraceAgg
  | some et => if agg.maxEnd < et then { agg with maxEnd := et } else agg
  | none => agg

/-- Go root-span identification: when the hit has no (or an empty) parent
reference, each of the three root fields is overwritten from the hit when
the corresponding key is a present string. -/
def updateRoot (agg : TraceAgg) (row : SpanRow) : TraceAgg :=
  if row.reference_parent_span_id.getD "" = "" then
    let a1 := match row.span_id with
      | some v => { agg with rootSpanID := v }
      | none => agg
    let a2 := match row.operation_name with
      | some v => { a1 with rootSpanName := v }
      | none => a1
    match row.span_kind with
    | some v => { a2 with rootSpanKind := v }
    | none => a2
  else agg

/-- The body of the per-hit loop of `GetTraces`, applied to the aggregate of
the hit's trace. -/
def updateAgg (agg : TraceAgg) (row : SpanRow) : TraceAgg :=
  updateRoot (updateMaxEnd (updateMinStart (bumpCount agg) row.start_time)
    row.end_time) row

/-- One per-hit iteration of `GetTraces`: skip hits without a trace id,
update the existing aggregate in place, or append a new aggregate at the end
of the first-seen order (Go's `traceMap` + `traceOrder` pair is modelled as
the ordered list of aggregates). -/
def insertRow (aggs : List TraceAgg) (row : SpanRow) : List TraceAgg :=
  if rowTraceID row = "" then aggs
  else if aggs.any (fun a => a.traceID == rowTraceID row) then
    aggs.map (fun a => if a.traceID = rowTraceID row then updateAgg a row else a)
  else aggs ++ [updateAgg (emptyAgg (rowTraceID row)) row]

/-- The grouping pass of `GetTraces` over all hits. -/
def buildTraceAggs (rows : List SpanRow) : List TraceAgg :=
  rows.foldl insertRow []

/-- Go `TraceEntry`, with the two `time.Time` fields as nanosecond epoch
values (`time.Unix(0, n)`). -/
structure TraceEntry where
  TraceID : String
  TraceName : String
  SpanCount : Nat
  RootSpanID : String
  RootSpanName : String
  RootSpanKind : String
  StartTime : Int
  EndTime : Int
  DurationNs : Int
deriving DecidableEq

/-- The emission loop of `GetTraces`: one `TraceEntry` per aggregate, in
first-seen order, with `DurationNs = maxEnd - minStart` and
`TraceName = RootSpanName`. -/
def getTracesFromHits (rows : List SpanRow) : List TraceEntry :=
  (buildTraceAggs rows).map fun a =>
    { TraceID := a.traceID, TraceName := a.rootSpanName, SpanCount := a.spanCount,
      RootSpanID := a.rootSpanID, RootSpanName := a.rootSpanName,
      RootSpanKind := a.rootSpanKind, StartTime := a.minStart,
      EndTime := a.maxEnd, DurationNs := a.maxEnd - a.minStart }

/-! ### Specification-side helpers for the reconstruction claims -/

/-- The rows of `rows` belonging to trace `tid`. -/
def traceRows (tid : String) (rows : List SpanRow) : List SpanRow :=
  rows.filter (fun r => rowTraceID r == tid)

/-- One step of the first-seen trace-id accumulation. -/
def seenStep (acc : List String) (r : SpanRow) : List String :=
  if rowTraceID r = "" ∨ rowTraceID r ∈ acc then acc else acc ++ [rowTraceID r]

/-- The distinct non-empty trace ids of `rows`, in order of first
appearance. -/
def firstSeenTraceIDs (rows : List SpanRow) : List String :=
  rows.foldl seenStep []

/-- The aggregate a trace id ends up with: its rows folded into a fresh
aggregate. -/
def aggOf (rows : List SpanRow) (tid : String) : TraceAgg :=
  (traceRows tid rows).foldl updateAgg (emptyAgg tid)

/-- One step of the `minStart` evolution (`0` is the unset sentinel). -/
def minStartStep (m : Int) : Option Int → Int
  | some st => if m = 0 ∨ st < m then st else m
  | none => m

/-- One step of the `maxEnd` evolution. -/
def maxEndStep (m : Int) : Option Int → Int
  | some et => if m < et then et else m
  | none => m

/-- One step of the evolution of a root field selected by `proj`. -/
def rootFieldStep (proj : SpanRow → Option String) (cur : String)
    (row : SpanRow) : String :=
  if row.reference_parent_span_id.getD "" = "" then (proj row).getD cur else cur

/-! ### Minimum / maximum / root evolution over one trace's rows -/

/-- The start timestamps present in a list of rows. -/
def startsOf (l : List SpanRow) : List Int := l.filterMap SpanRow.start_time

/-- The end timestamps present in a list of rows. -/
def endsOf (l : List SpanRow) : List Int := l.filterMap SpanRow.end_time

/-- The empty-parent rows of a list (the root candidates). -/
def rootRows (l : List SpanRow) : List SpanRow :=
  l.filter (fun r => r.reference_parent_span_id.getD "" == "")

/-! ## Logs request dispatch (Go `LogsHandler.QueryLogs`) -/

/-- Whitespace test used by Go `strings.TrimSpace`, restricted to the ASCII
whitespace characters relevant here. -/
def isSpaceChar (c : Char) : Bool :=
  c == ' ' || c == '\t' || c == '\n' || c == '\r'

/-- Go `strings.TrimSpace`: leading and trailing whitespace removed. -/
def goTrimSpace (s : String) : String :=
  String.mk (((s.data.dropWhile isSpaceChar).reverse.dropWhile isSpaceChar).reverse)

/-- Modelled from the spec: the request's `searchScope` union object as the
transport layer decodes it.  The generated `AsWorkflowSearchScope` /
`AsComponentSearchScope` coercions (outside this repository's sources) are
plain JSON re-decodes of the same object, which succeed on any object and
ignore unknown fields — the spec describes this as "fallible type coercion
attempts in sequence" with "silent fallthrough between shapes" (§9).  Both
shapes therefore see the same `namespace`, and the workflow shape sees
`workflowRunName` when present. -/
structure RawSearchScope where
  Namespace : String
  WorkflowRunName : Option String
  ProjectUid : Option String
  EnvironmentUid : Option String
  ComponentUid : Option String
deriving DecidableEq

/-- The fields of `gen.LogsQueryRequest` the handler reads. -/
structure LogsQueryRequest where
  SearchScope : RawSearchScope
  StartTime : Int
  EndTime : Int
  Limit : Option Int
  SortOrder : Option String
  SearchPhrase : Option String
  LogLevels : Option (List String)
deriving DecidableEq

/-- Go `toWorkflowLogsParams`: optional request fields default to Go zero
values. -/
def toWorkflowLogsParamsModel (req : LogsQueryRequest) : WorkflowLogsParams :=
  { Namespace := req.SearchScope.Namespace
    WorkflowRunName := req.SearchScope.WorkflowRunName.getD ""
    StartTime := req.StartTime
    EndTime := req.EndTime
    SearchPhrase := req.SearchPhrase.getD ""
    LogLevels := req.LogLevels.getD []
    Limit := req.Limit.getD 0
    SortOrder := req.SortOrder.getD "" }

/-- Go `toComponentLogsParams`: a present `componentUid` becomes a singleton
id list. -/
def toComponentLogsParamsModel (req : LogsQueryRequest) : ComponentLogsParams :=
  { Namespace := req.SearchScope.Namespace
    ComponentIDs := match req.SearchScope.ComponentUid with
      | some u => [u]
      | none => []
    EnvironmentID := req.SearchScope.EnvironmentUid.getD ""
    ProjectID := req.SearchScope.ProjectUid.getD ""
    StartTime := req.StartTime
    EndTime := req.EndTime
    SearchPhrase := req.SearchPhrase.getD ""
    LogLevels := req.LogLevels.getD []
    Limit := req.Limit.getD 0
    SortOrder := req.SortOrder.getD "" }

/-- The possible outcomes of the scope dispatch in `QueryLogs` (before any
network call). -/
inductive QueryLogsOutcome where
  | badRequest (message : String)
  | workflow (params : WorkflowLogsParams)
  | component (params : ComponentLogsParams)
deriving DecidableEq

/-- Whether an outcome is the 400 validation response. -/
def QueryLogsOutcome.isBadRequest : QueryLogsOutcome → Bool
  | .badRequest _ => true
  | _ => false

/-- The scope dispatch of Go `QueryLogs`: the workflow shape is tried first
and wins whenever `workflowRunName` is non-blank; only a blank namespace is
rejected.  (A `nil` `WorkflowRunName` trims to the empty string, matching the
Go `workflowScope.WorkflowRunName != nil && strings.TrimSpace(...) != ""`
guard.) -/
def queryLogsDispatch (req : LogsQueryRequest) : QueryLogsOutcome :=
  if goTrimSpace (req.SearchScope.WorkflowRunName.getD "") ≠ "" then
    if goTrimSpace req.SearchScope.Namespace = "" then
      .badRequest "searchScope with a valid namespace is required"
    else .workflow (toWorkflowLogsParamsModel req)
  else
    if goTrimSpace req.SearchScope.Namespace = "" then
      .badRequest "searchScope with a valid namespace is required"
    else .component (toComponentLogsParamsModel req)

/-! ## Search execution status handling (Go `executeSearchQuery`)

The status-check stage after the response body has been read: the logs
module's client and the tracing module's client differ in whether the body
is embedded in the returned error. -/

/-- Logs module (`observability-logs-openobserve`):
`fmt.Errorf("openobserve returned status %d: %s", resp.StatusCode, string(body))`. -/
def logsHandleSearchStatus (statusCode : Nat) (body : String) : Except String String :=
  if statusCode ≠ 200 then
    .error ("openobserve returned status " ++ toString statusCode ++ ": " ++ body)
  else .ok body

/-- Tracing module (`observability-tracing-openobserve`):
`fmt.Errorf("openobserve returned status %d: response body omitted", resp.StatusCode)`. -/
def tracingHandleSearchStatus (statusCode : Nat) (body : String) : Except String String :=
  if statusCode ≠ 200 then
    .error ("openobserve returned status " ++ toString statusCode
      ++ ": response body omitted")
  else .ok body

/-! ## Alert id resolution (Go `Client.getAlertIDByName`) -/

/-- One entry of the backend's alert list response. -/
structure AlertListEntry where
  alert_id : String
  name : String
deriving DecidableEq

/-- The two distinguishable failure classes of the lookup: a backend
execution failure and the name-not-found case
(`fmt.Errorf("openobserve returned status %d: %s", ...)` versus
`fmt.Errorf("alert %q not found", name)`). -/
inductive AlertLookupError where
  | executionError (statusCode : Nat) (body : String)
  | notFound (name : String)
deriving DecidableEq

/-- The Go error message each failure renders to. -/
def alertErrorMessage : AlertLookupError → String
  | .executionError statusCode body =>
    "openobserve returned status " ++ toString statusCode ++ ": " ++ body
  | .notFound name => "alert \"" ++ name ++ "\" not found"

/-- The linear scan of `getAlertIDByName` over the decoded alert list: the
first entry whose name matches exactly wins, otherwise not-found. -/
def findFirstAlertID : List AlertListEntry → String → Except AlertLookupError String
  | [], name => .error (.notFound name)
  | a :: rest, name =>
    if a.name = name then .ok a.alert_id else findFirstAlertID rest name

/-! ## Case-insensitive comparison reference (for the sort-order claim) -/

/-- Modelled from the spec: the character-wise lowercase fold used to state
"case-insensitive comparison" (the code itself never lowercases). -/
def strToLower (s : String) : String := String.mk (s.data.map Char.toLower)

/-! ## Concrete inputs used by the claim theorems -/

/-- An ambiguous request: the workflow shape (non-blank `workflowRunName`)
and the component shape (`componentUid`, `projectUid`) are populated at
once. -/
def cexC4Req : LogsQueryRequest :=
  { SearchScope :=
      { Namespace := "my-namespace"
        WorkflowRunName := some "run-1"
        ProjectUid := some "proj-1"
        EnvironmentUid := none
        ComponentUid := some "comp-1" },
    StartTime := 0, EndTime := 1, Limit := none, SortOrder := none,
    SearchPhrase := none, LogLevels := none }

/-- Two rows of one trace, both with an empty parent reference (two root
candidates, spec §8). -/
def c5Rows : List SpanRow :=
  [{ trace_id := some "T1", span_id := some "A", operation_name := some "opA",
     span_kind := some "SERVER", start_time := some 1, end_time := some 2,
     reference_parent_span_id := some "" },
   { trace_id := some "T1", span_id := some "B", operation_name := some "opB",
     span_kind := some "CLIENT", start_time := some 3, end_time := some 4,
     reference_parent_span_id := some "" }]

/-- One trace whose first row starts at time `0` (the aggregator's unset
sentinel) and whose end times are negative. -/
def c6CexRows : List SpanRow :=
  [{ trace_id := some "T1", span_id := some "A", operation_name := some "opA",
     span_kind := some "SERVER", start_time := some 0, end_time := some (-5),
     reference_parent_span_id := some "" },
   { trace_id := some "T1", span_id := some "B", operation_name := some "opB",
     span_kind := some "CLIENT", start_time := some 5, end_time := some (-3),
     reference_parent_span_id := some "A" }]

/-- The spec §8 example trace: a root row and one child row, with positive
timestamps. -/
def c6WitRows : List SpanRow :=
  [{ trace_id := some "T1", span_id := some "A", operation_name := some "opA",
     span_kind := some "SERVER", start_time := some 10, end_time := some 20,
     reference_parent_span_id := some "" },
   { trace_id := some "T1", span_id := some "B", operation_name := some "opB",
     span_kind := some "CLIENT", start_time := some 12, end_time := some 18,
     reference_parent_span_id := some "A" }]

/-- A component-scope request whose namespace is whitespace only, with every
other field populated. -/
def c8Req : LogsQueryRequest :=
  { SearchScope :=
      { Namespace := "   "
        WorkflowRunName := none
        ProjectUid := some "p"
        EnvironmentUid := some "e"
        ComponentUid := some "c" },
    StartTime := 0, EndTime := 1, Limit := some 10, SortOrder := some "asc",
    SearchPhrase := some "x", LogLevels := some ["ERROR"] }

/-- Generator-level parameters with an empty namespace and every other field
populated. -/
def c8Params : ComponentLogsParams :=
  { Namespace := "", ComponentIDs := ["c1", "c2"], EnvironmentID := "e",
    ProjectID := "p", StartTime := 0, EndTime := 1, SearchPhrase := "x",
    LogLevels := ["ERROR"], Limit := 50, SortOrder := "asc" }

/-- A workflow logs request with a non-empty namespace. -/
def c10Params : WorkflowLogsParams :=
  { Namespace := "myns", WorkflowRunName := "run", StartTime := 0, EndTime := 1,
    SearchPhrase := "", LogLevels := [], Limit := 10, SortOrder := "asc" }

/-! ## Lemmas and claim theorems -/

lemma doubleChar_ne (target : Char) (c : Char) (hc : c ≠ target) (l : List Char) :
    doubleChar target (c :: l) = c :: doubleChar target l := by
  simp [doubleChar, hc]

lemma doubleChar_eq (target : Char) (l : List Char) :
    doubleChar target (target :: l) = target :: target :: doubleChar target l := by
  simp [doubleChar]

lemma unquote_cons_backslash (l : List Char) :
    unquoteLiteralChars ('\\' :: '\\' :: l)
      = (unquoteLiteralChars l).map (fun x => '\\' :: x) := by
  rw [unquoteLiteralChars.eq_def]; simp

lemma unquote_cons_quote (l : List Char) :
    unquoteLiteralChars ('\'' :: '\'' :: l)
      = (unquoteLiteralChars l).map (fun x => '\'' :: x) := by
  rw [unquoteLiteralChars.eq_def]; simp

lemma unquote_cons_other (c : Char) (h1 : c ≠ '\\') (h2 : c ≠ '\'')
    (l : List Char) :
    unquoteLiteralChars (c :: l) = (unquoteLiteralChars l).map (fun x => c :: x) := by
  rw [unquoteLiteralChars.eq_def]; simp [h1, h2]

/-- Core round-trip: unescaping the fully escaped character list followed by a
closing quote recovers the original characters with nothing left over. -/
lemma unquote_escaped (l : List Char) :
    unquoteLiteralChars (doubleChar '\'' (doubleChar '\\' l) ++ ['\'']) = some l := by
  induction l with
  | nil =>
    simp only [doubleChar, List.nil_append]
    rw [unquoteLiteralChars.eq_def]; simp
  | cons c rest ih =>
    by_cases hb : c = '\\'
    · subst hb
      rw [doubleChar_eq]
      rw [doubleChar_ne '\'' '\\' (by decide), doubleChar_ne '\'' '\\' (by decide)]
      simp [unquote_cons_backslash, ih]
    · by_cases hq : c = '\''
      · subst hq
        rw [doubleChar_ne '\\' '\'' (by decide), doubleChar_eq]
        simp [unquote_cons_quote, ih]
      · rw [doubleChar_ne '\\' c hb, doubleChar_ne '\'' c hq]
        simp [unquote_cons_other c hb hq, ih]

lemma string_data_append (a b : String) : (a ++ b).data = a.data ++ b.data := rfl

/-- Re-embedding `escapeSQLString s` between single quotes and running the
reference literal-unescaper yields back `s`, for every string. -/
lemma escapeSQLString_roundtrip (s : String) :
    parseSingleQuotedLiteral ("'" ++ escapeSQLString s ++ "'") = some s := by
  have hdata : ("'" ++ escapeSQLString s ++ "'").data
      = '\'' :: (doubleChar '\'' (doubleChar '\\' s.data) ++ ['\'']) := by
    rw [string_data_append, string_data_append]
    simp [escapeSQLString]
  rw [parseSingleQuotedLiteral, hdata]
  simp [unquote_escaped]

@[simp] lemma renderFrags_nil : renderFrags [] = "" := rfl

@[simp] lemma renderFrags_cons (f : Frag) (fs : List Frag) :
    renderFrags (f :: fs) = f.render ++ renderFrags fs := rfl

lemma renderFrags_append (a b : List Frag) :
    renderFrags (a ++ b) = renderFrags a ++ renderFrags b := by
  induction a with
  | nil => simp [String.empty_append]
  | cons f fs ih => simp [ih, String.append_assoc]

lemma renderFrags_fragsJoin (gs : List (List Frag)) (sep : String) :
    renderFrags (fragsJoin gs sep) = stringsJoin (gs.map renderFrags) sep := by
  induction gs with
  | nil => rfl
  | cons g rest ih =>
    cases rest with
    | nil => simp [fragsJoin, stringsJoin]
    | cons g2 rest2 =>
      simp only [fragsJoin, stringsJoin, List.map_cons]
      rw [renderFrags_append, renderFrags_append]
      rw [ih]
      simp [Frag.render, String.append_assoc, String.append_empty, stringsJoin]

lemma mem_fragsJoin {f : Frag} {gs : List (List Frag)} {sep : String}
    (h : f ∈ fragsJoin gs sep) : f = Frag.static sep ∨ ∃ g ∈ gs, f ∈ g := by
  induction gs with
  | nil => simp [fragsJoin] at h
  | cons g rest ih =>
    cases rest with
    | nil =>
      simp only [fragsJoin] at h
      exact Or.inr ⟨g, by simp, h⟩
    | cons g2 rest2 =>
      simp only [fragsJoin, List.mem_append, List.mem_singleton] at h
      rcases h with (h | h) | h
      · exact Or.inr ⟨g, by simp, h⟩
      · exact Or.inl h
      · rcases ih h with h' | ⟨g', hg', hf'⟩
        · exact Or.inl h'
        · exact Or.inr ⟨g', by simp [hg'], hf'⟩

lemma renderFrags_litCond (pre v post : String) :
    renderFrags (litCond pre v post) = pre ++ escapeSQLString v ++ post := by
  simp [litCond, Frag.render, String.append_assoc, String.append_empty]

lemma mem_litCond {f : Frag} {pre v post : String} (h : f ∈ litCond pre v post) :
    f = Frag.static pre ∨ f = Frag.lit v ∨ f = Frag.static post := by
  simpa [litCond] using h

lemma renderFrags_orGroupFrags (items : List (List Frag)) :
    renderFrags (orGroupFrags items)
      = "(" ++ stringsJoin (items.map renderFrags) " OR " ++ ")" := by
  simp only [orGroupFrags]
  rw [renderFrags_append, renderFrags_append, renderFrags_fragsJoin]
  simp [Frag.render, String.append_assoc, String.append_empty]

lemma mem_orGroupFrags {f : Frag} {items : List (List Frag)}
    (h : f ∈ orGroupFrags items) :
    f = Frag.static "(" ∨ f = Frag.static ")" ∨ f = Frag.static " OR "
      ∨ ∃ g ∈ items, f ∈ g := by
  simp only [orGroupFrags, List.mem_append, List.mem_singleton] at h
  rcases h with (h | h) | h
  · exact Or.inl h
  · rcases mem_fragsJoin h with h' | h'
    · exact Or.inr (Or.inr (Or.inl h'))
    · exact Or.inr (Or.inr (Or.inr h'))
  · exact Or.inr (Or.inl h)

lemma workflowConds_eq_render (p : WorkflowLogsParams) :
    workflowLogsConditions p = (workflowLogsCondFrags p).map renderFrags := by
  simp only [workflowLogsConditions, workflowLogsCondFrags, List.map_append,
    apply_ite (List.map renderFrags), List.map_nil, List.map_cons,
    renderFrags_litCond, renderFrags_orGroupFrags, List.map_map,
    Function.comp_def]

lemma workflowSQL_eq_render (p : WorkflowLogsParams) (stream : String) :
    workflowLogsSQL p stream = renderFrags (workflowLogsFrags p stream) := by
  simp only [workflowLogsSQL, workflowLogsFrags]
  rw [workflowConds_eq_render p]
  by_cases h : ((workflowLogsCondFrags p).map renderFrags).length > 0
  · have h' : (workflowLogsCondFrags p).length > 0 := by
      simpa [List.length_map] using h
    rw [if_pos h, if_pos h']
    rw [renderFrags_append, renderFrags_append, renderFrags_append,
      renderFrags_fragsJoin]
    simp [Frag.render, String.append_assoc, String.append_empty]
  · have h' : ¬ (workflowLogsCondFrags p).length > 0 := by
      simpa [List.length_map] using h
    rw [if_neg h, if_neg h']
    rw [renderFrags_append, renderFrags_append]
    simp [Frag.render, String.append_assoc, String.append_empty]

lemma logsOrderClause_static (so : String) :
    logsOrderClause so ∈ sqlStaticFragments := by
  rw [logsOrderClause]
  split
  · decide
  · decide

lemma workflowFrags_safe (p : WorkflowLogsParams) (stream : String) :
    ∀ f ∈ workflowLogsFrags p stream, FragSafe (workflowCallers p) [stream] [] f := by
  intro f hf
  simp only [workflowLogsFrags, List.mem_append, List.mem_cons,
    List.mem_singleton, List.not_mem_nil, or_false, false_or] at hf
  rcases hf with ((hf | hf) | hf) | hf
  · subst hf; simp only [FragSafe]; decide
  · subst hf; simp [FragSafe]
  · by_cases h : (workflowLogsCondFrags p).length > 0
    · rw [if_pos h] at hf
      rcases List.mem_append.mp hf with hf | hf
      · rcases List.mem_singleton.mp hf with rfl
        simp only [FragSafe]; decide
      · rcases mem_fragsJoin hf with rfl | ⟨g, hg, hfg⟩
        · simp only [FragSafe]; decide
        · simp only [workflowLogsCondFrags, List.mem_append] at hg
          rcases hg with ((hg | hg) | hg) | hg
          all_goals first
          | (rcases List.mem_singleton.mp (by
              revert hg; split
              · exact fun hg => hg
              · exact fun hg => absurd hg (List.not_mem_nil _)) with rfl
             rcases mem_litCond hfg with rfl | rfl | rfl
             · simp only [FragSafe]; decide
             · simp [FragSafe, workflowCallers]
             · simp only [FragSafe]; decide)
          | skip
          · -- log levels OR-group
            have hg' : g = orGroupFrags (p.LogLevels.map
                (fun level => litCond "logLevel = '" level "'")) := by
              revert hg; split
              · intro hg; exact List.mem_singleton.mp hg
              · intro hg; exact absurd hg (List.not_mem_nil _)
            subst hg'
            rcases mem_orGroupFrags hfg with rfl | rfl | rfl | ⟨g', hg', hfg'⟩
            · simp only [FragSafe]; decide
            · simp only [FragSafe]; decide
            · simp only [FragSafe]; decide
            · rcases List.mem_map.mp hg' with ⟨level, hlevel, rfl⟩
              rcases mem_litCond hfg' with rfl | rfl | rfl
              · simp only [FragSafe]; decide
              · simp [FragSafe, workflowCallers, hlevel]
              · simp only [FragSafe]; decide
    · rw [if_neg h] at hf
      exact absurd hf (List.not_mem_nil _)
  · subst hf
    simp only [FragSafe]
    exact logsOrderClause_static p.SortOrder

/-! ### Safety helper lemmas -/

lemma mem_if_singleton {α : Type} {c : Prop} [Decidable c] {g x : α}
    (h : g ∈ (if c then [x] else [])) : g = x := by
  split at h
  · exact List.mem_singleton.mp h
  · exact absurd h (List.not_mem_nil _)

lemma safe_append {P : Frag → Prop} {a b : List Frag}
    (ha : ∀ f ∈ a, P f) (hb : ∀ f ∈ b, P f) : ∀ f ∈ a ++ b, P f := by
  intro f hf
  rcases List.mem_append.mp hf with h | h
  · exact ha f h
  · exact hb f h

lemma safe_ite {P : Frag → Prop} {c : Prop} [Decidable c] {a b : List Frag}
    (ha : ∀ f ∈ a, P f) (hb : ∀ f ∈ b, P f) : ∀ f ∈ (if c then a else b), P f := by
  split
  · exact ha
  · exact hb

lemma safe_nil {P : Frag → Prop} : ∀ f ∈ ([] : List Frag), P f := by
  intro f hf
  exact absurd hf (List.not_mem_nil _)

lemma safe_singleton {P : Frag → Prop} {x : Frag} (h : P x) : ∀ f ∈ [x], P f := by
  intro f hf
  rcases List.mem_singleton.mp hf with rfl
  exact h

lemma safe_cons {P : Frag → Prop} {x : Frag} {rest : List Frag}
    (h : P x) (hrest : ∀ f ∈ rest, P f) : ∀ f ∈ x :: rest, P f := by
  intro f hf
  rcases List.mem_cons.mp hf with rfl | hf'
  · exact h
  · exact hrest f hf'

lemma safe_fragsJoin {P : Frag → Prop} {gs : List (List Frag)} {sep : String}
    (hsep : P (Frag.static sep)) (h : ∀ g ∈ gs, ∀ f ∈ g, P f) :
    ∀ f ∈ fragsJoin gs sep, P f := by
  intro f hf
  rcases mem_fragsJoin hf with rfl | ⟨g, hg, hfg⟩
  · exact hsep
  · exact h g hg f hfg

lemma safe_litCond {P : Frag → Prop} {pre v post : String}
    (h1 : P (Frag.static pre)) (h2 : P (Frag.lit v)) (h3 : P (Frag.static post)) :
    ∀ f ∈ litCond pre v post, P f := by
  intro f hf
  rcases mem_litCond hf with rfl | rfl | rfl
  · exact h1
  · exact h2
  · exact h3

lemma safe_orGroup {P : Frag → Prop} {items : List (List Frag)}
    (h1 : P (Frag.static "(")) (h2 : P (Frag.static ")"))
    (h3 : P (Frag.static " OR ")) (h : ∀ g ∈ items, ∀ f ∈ g, P f) :
    ∀ f ∈ orGroupFrags items, P f := by
  intro f hf
  rcases mem_orGroupFrags hf with rfl | rfl | rfl | ⟨g, hg, hfg⟩
  · exact h1
  · exact h2
  · exact h3
  · exact h g hg f hfg

lemma static_safe {c i r : List String} {s : String}
    (h : s ∈ sqlStaticFragments) : FragSafe c i r (Frag.static s) := h

lemma lit_safe {c i r : List String} {v : String} (h : v ∈ c) :
    FragSafe c i r (Frag.lit v) := h

lemma ident_safe {c i r : List String} {v : String} (h : v ∈ i) :
    FragSafe c i r (Frag.ident v) := h

lemma raw_safe {c i r : List String} {v : String} (h : v ∈ r) :
    FragSafe c i r (Frag.raw v) := h

lemma componentConds_eq_render (p : ComponentLogsParams) :
    componentLogsConditions p = (componentLogsCondFrags p).map renderFrags := by
  simp only [componentLogsConditions, componentLogsCondFrags, List.map_append,
    apply_ite (List.map renderFrags), List.map_nil, List.map_cons,
    renderFrags_litCond, renderFrags_orGroupFrags, List.map_map,
    Function.comp_def]

lemma componentSQL_eq_render (p : ComponentLogsParams) (stream : String) :
    componentLogsSQL p stream = renderFrags (componentLogsFrags p stream) := by
  simp only [componentLogsSQL, componentLogsFrags]
  rw [componentConds_eq_render p]
  by_cases h : ((componentLogsCondFrags p).map renderFrags).length > 0
  · have h' : (componentLogsCondFrags p).length > 0 := by
      simpa [List.length_map] using h
    rw [if_pos h, if_pos h']
    rw [renderFrags_append, renderFrags_append, renderFrags_append,
      renderFrags_fragsJoin]
    simp [Frag.render, String.append_assoc, String.append_empty]
  · have h' : ¬ (componentLogsCondFrags p).length > 0 := by
      simpa [List.length_map] using h
    rw [if_neg h, if_neg h']
    rw [renderFrags_append, renderFrags_append]
    simp [Frag.render, String.append_assoc, String.append_empty]

lemma componentCondFrags_safe (p : ComponentLogsParams) (i r : List String) :
    ∀ g ∈ componentLogsCondFrags p, ∀ f ∈ g,
      FragSafe (componentCallers p) i r f := by
  intro g hg
  simp only [componentLogsCondFrags, List.mem_append, List.mem_singleton] at hg
  rcases hg with ((((hg | hg) | hg) | hg) | hg) | hg
  · subst hg
    exact safe_litCond (static_safe (by decide))
      (lit_safe (by simp [componentCallers])) (static_safe (by decide))
  · rcases mem_if_singleton hg with rfl
    exact safe_litCond (static_safe (by decide))
      (lit_safe (by simp [componentCallers])) (static_safe (by decide))
  · rcases mem_if_singleton hg with rfl
    exact safe_litCond (static_safe (by decide))
      (lit_safe (by simp [componentCallers])) (static_safe (by decide))
  · rcases mem_if_singleton hg with rfl
    refine safe_orGroup (static_safe (by decide)) (static_safe (by decide))
      (static_safe (by decide)) ?_
    intro g' hg'
    rcases List.mem_map.mp hg' with ⟨id, hid, rfl⟩
    exact safe_litCond (static_safe (by decide))
      (lit_safe (by simp [componentCallers, hid])) (static_safe (by decide))
  · rcases mem_if_singleton hg with rfl
    exact safe_litCond (static_safe (by decide))
      (lit_safe (by simp [componentCallers])) (static_safe (by decide))
  · rcases mem_if_singleton hg with rfl
    refine safe_orGroup (static_safe (by decide)) (static_safe (by decide))
      (static_safe (by decide)) ?_
    intro g' hg'
    rcases List.mem_map.mp hg' with ⟨level, hlevel, rfl⟩
    exact safe_litCond (static_safe (by decide))
      (lit_safe (by simp [componentCallers, hlevel])) (static_safe (by decide))

lemma componentFrags_safe (p : ComponentLogsParams) (stream : String) :
    ∀ f ∈ componentLogsFrags p stream,
      FragSafe (componentCallers p) [stream] [] f := by
  refine safe_append (safe_append (safe_cons (static_safe ?_)
    (safe_singleton (ident_safe ?_))) (safe_ite ?_ safe_nil))
    (safe_singleton (static_safe ?_))
  · decide
  · simp
  · exact safe_append (safe_singleton (static_safe (by decide)))
      (safe_fragsJoin (static_safe (by decide)) (componentCondFrags_safe p _ _))
  · exact logsOrderClause_static p.SortOrder

lemma tracesConds_eq_render (p : TracesQueryParams) :
    buildFilterConditions p = (tracesCondFrags p).map renderFrags := by
  simp only [buildFilterConditions, tracesCondFrags, List.map_append,
    apply_ite (List.map renderFrags), List.map_nil, List.map_cons,
    renderFrags_litCond]

lemma tracesListSQL_eq_render (p : TracesQueryParams) (stream : String) :
    tracesListSQL p stream = renderFrags (tracesListFrags p stream) := by
  simp only [tracesListSQL, tracesListFrags]
  rw [tracesConds_eq_render p]
  by_cases h : ((tracesCondFrags p).map renderFrags).length > 0
  · have h' : (tracesCondFrags p).length > 0 := by
      simpa [List.length_map] using h
    rw [if_pos h, if_pos h']
    rw [renderFrags_append, renderFrags_append, renderFrags_append,
      renderFrags_fragsJoin]
    simp [Frag.render, String.append_assoc, String.append_empty]
  · have h' : ¬ (tracesCondFrags p).length > 0 := by
      simpa [List.length_map] using h
    rw [if_neg h, if_neg h']
    rw [renderFrags_append, renderFrags_append]
    simp [Frag.render, String.append_assoc, String.append_empty]

lemma tracesCondFrags_safe (p : TracesQueryParams) (i r : List String) :
    ∀ g ∈ tracesCondFrags p, ∀ f ∈ g, FragSafe (tracesCallers p) i r f := by
  intro g hg
  simp only [tracesCondFrags, List.mem_append] at hg
  rcases hg with ((hg | hg) | hg) | hg
  · rcases mem_if_singleton hg with rfl
    exact safe_litCond (static_safe (by decide))
      (lit_safe (by simp [tracesCallers])) (static_safe (by decide))
  · rcases mem_if_singleton hg with rfl
    exact safe_litCond (static_safe (by decide))
      (lit_safe (by simp [tracesCallers])) (static_safe (by decide))
  · rcases mem_if_singleton hg with rfl
    exact safe_litCond (static_safe (by decide))
      (lit_safe (by simp [tracesCallers])) (static_safe (by decide))
  · rcases mem_if_singleton hg with rfl
    exact safe_litCond (static_safe (by decide))
      (lit_safe (by simp [tracesCallers])) (static_safe (by decide))

lemma tracesListFrags_safe (p : TracesQueryParams) (stream : String) :
    ∀ f ∈ tracesListFrags p stream,
      FragSafe (tracesCallers p) [] [stream] f := by
  refine safe_append (safe_append (safe_cons (static_safe ?_)
    (safe_singleton (raw_safe ?_))) (safe_ite ?_ safe_nil))
    (safe_singleton (static_safe ?_))
  · decide
  · simp
  · exact safe_append (safe_singleton (static_safe (by decide)))
      (safe_fragsJoin (static_safe (by decide)) (tracesCondFrags_safe p _ _))
  · decide

lemma spansOrderClause_static (so : String) :
    spansOrderClause so ∈ sqlStaticFragments := by
  rw [spansOrderClause]
  split
  · decide
  · decide

lemma spansListSQL_eq_render (p : TracesQueryParams) (stream : String) :
    spansListSQL p stream = renderFrags (spansListFrags p stream) := by
  simp only [spansListSQL, spansListFrags]
  rw [renderFrags_append, renderFrags_append, renderFrags_litCond]
  simp [Frag.render, stringsJoin, String.append_assoc, String.append_empty]

lemma spansListFrags_safe (p : TracesQueryParams) (stream : String) :
    ∀ f ∈ spansListFrags p stream, FragSafe [p.TraceID] [] [stream] f := by
  refine safe_append (safe_append (safe_cons (static_safe ?_)
    (safe_cons (raw_safe ?_) (safe_singleton (static_safe ?_))))
    (safe_litCond (static_safe ?_) (lit_safe ?_) (static_safe ?_)))
    (safe_singleton (static_safe ?_))
  · decide
  · simp
  · decide
  · decide
  · simp
  · decide
  · exact spansOrderClause_static p.SortDir

lemma spanDetailSQL_eq_render (p : TracesQueryParams) (stream : String) :
    spanDetailSQL p stream = renderFrags (spanDetailFrags p stream) := by
  simp only [spanDetailSQL, spanDetailFrags]
  rw [renderFrags_append, renderFrags_append, renderFrags_append,
    renderFrags_litCond, renderFrags_litCond]
  simp [Frag.render, stringsJoin, String.append_assoc, String.append_empty]

lemma spanDetailFrags_safe (p : TracesQueryParams) (stream : String) :
    ∀ f ∈ spanDetailFrags p stream,
      FragSafe [p.TraceID, p.SpanID] [] [stream] f := by
  refine safe_append (safe_append (safe_append (safe_cons (static_safe ?_)
    (safe_cons (raw_safe ?_) (safe_singleton (static_safe ?_))))
    (safe_litCond (static_safe ?_) (lit_safe ?_) (static_safe ?_)))
    (safe_singleton (static_safe ?_)))
    (safe_litCond (static_safe ?_) (lit_safe ?_) (static_safe ?_))
  · decide
  · simp
  · decide
  · decide
  · simp
  · decide
  · decide
  · decide
  · simp
  · decide

lemma alertQuerySQL_eq_render (searchPattern stream : String) :
    alertQuerySQL searchPattern stream
      = renderFrags (alertQueryFrags searchPattern stream) := by
  simp [alertQuerySQL, alertQueryFrags, Frag.render, String.append_assoc,
    String.append_empty]

lemma alertQueryFrags_safe (searchPattern stream : String) :
    ∀ f ∈ alertQueryFrags searchPattern stream,
      FragSafe [searchPattern] [stream] [] f := by
  refine safe_cons (static_safe (by decide)) (safe_cons (ident_safe (by simp))
    (safe_cons (static_safe (by decide)) (safe_cons (lit_safe (by simp))
      (safe_singleton (static_safe (by decide))))))

/-! ### Componentwise behaviour of `updateAgg` -/

lemma updateMinStart_minStart (a : TraceAgg) (o : Option Int) :
    (updateMinStart a o).minStart = minStartStep a.minStart o := by
  cases o with
  | none => rfl
  | some st =>
    simp only [updateMinStart, minStartStep]
    split <;> rfl

lemma updateMinStart_keep (a : TraceAgg) (o : Option Int) :
    (updateMinStart a o).traceID = a.traceID
    ∧ (updateMinStart a o).spanCount = a.spanCount
    ∧ (updateMinStart a o).maxEnd = a.maxEnd
    ∧ (updateMinStart a o).rootSpanID = a.rootSpanID
    ∧ (updateMinStart a o).rootSpanName = a.rootSpanName
    ∧ (updateMinStart a o).rootSpanKind = a.rootSpanKind := by
  cases o with
  | none => exact ⟨rfl, rfl, rfl, rfl, rfl, rfl⟩
  | some st =>
    simp only [updateMinStart]
    split <;> exact ⟨rfl, rfl, rfl, rfl, rfl, rfl⟩

lemma updateMaxEnd_maxEnd (a : TraceAgg) (o : Option Int) :
    (updateMaxEnd a o).maxEnd = maxEndStep a.maxEnd o := by
  cases o with
  | none => rfl
  | some et =>
    simp only [updateMaxEnd, maxEndStep]
    split <;> rfl

lemma updateMaxEnd_keep (a : TraceAgg) (o : Option Int) :
    (updateMaxEnd a o).traceID = a.traceID
    ∧ (updateMaxEnd a o).spanCount = a.spanCount
    ∧ (updateMaxEnd a o).minStart = a.minStart
    ∧ (updateMaxEnd a o).rootSpanID = a.rootSpanID
    ∧ (updateMaxEnd a o).rootSpanName = a.rootSpanName
    ∧ (updateMaxEnd a o).rootSpanKind = a.rootSpanKind := by
  cases o with
  | none => exact ⟨rfl, rfl, rfl, rfl, rfl, rfl⟩
  | some et =>
    simp only [updateMaxEnd]
    split <;> exact ⟨rfl, rfl, rfl, rfl, rfl, rfl⟩

lemma updateRoot_keep (a : TraceAgg) (row : SpanRow) :
    (updateRoot a row).traceID = a.traceID
    ∧ (updateRoot a row).spanCount = a.spanCount
    ∧ (updateRoot a row).minStart = a.minStart
    ∧ (updateRoot a row).maxEnd = a.maxEnd := by
  simp only [updateRoot]
  split
  · cases row.span_id <;> cases row.operation_name <;> cases row.span_kind <;>
      exact ⟨rfl, rfl, rfl, rfl⟩
  · exact ⟨rfl, rfl, rfl, rfl⟩

lemma updateRoot_rootSpanID (a : TraceAgg) (row : SpanRow) :
    (updateRoot a row).rootSpanID = rootFieldStep SpanRow.span_id a.rootSpanID row := by
  simp only [updateRoot, rootFieldStep]
  split
  · cases row.span_id <;> cases row.operation_name <;> cases row.span_kind <;> rfl
  · rfl

lemma updateRoot_rootSpanName (a : TraceAgg) (row : SpanRow) :
    (updateRoot a row).rootSpanName
      = rootFieldStep SpanRow.operation_name a.rootSpanName row := by
  simp only [updateRoot, rootFieldStep]
  split
  · cases row.span_id <;> cases row.operation_name <;> cases row.span_kind <;> rfl
  · rfl

lemma updateRoot_rootSpanKind (a : TraceAgg) (row : SpanRow) :
    (updateRoot a row).rootSpanKind
      = rootFieldStep SpanRow.span_kind a.rootSpanKind row := by
  simp only [updateRoot, rootFieldStep]
  split
  · cases row.span_id <;> cases row.operation_name <;> cases row.span_kind <;> rfl
  · rfl

lemma updateAgg_traceID (a : TraceAgg) (row : SpanRow) :
    (updateAgg a row).traceID = a.traceID := by
  simp only [updateAgg]
  rw [(updateRoot_keep _ _).1, (updateMaxEnd_keep _ _).1, (updateMinStart_keep _ _).1]
  rfl

lemma updateAgg_spanCount (a : TraceAgg) (row : SpanRow) :
    (updateAgg a row).spanCount = a.spanCount + 1 := by
  simp only [updateAgg]
  rw [(updateRoot_keep _ _).2.1, (updateMaxEnd_keep _ _).2.1,
    (updateMinStart_keep _ _).2.1]
  rfl

lemma updateAgg_minStart (a : TraceAgg) (row : SpanRow) :
    (updateAgg a row).minStart = minStartStep a.minStart row.start_time := by
  simp only [updateAgg]
  rw [(updateRoot_keep _ _).2.2.1, (updateMaxEnd_keep _ _).2.2.1,
    updateMinStart_minStart]
  rfl

lemma updateAgg_maxEnd (a : TraceAgg) (row : SpanRow) :
    (updateAgg a row).maxEnd = maxEndStep a.maxEnd row.end_time := by
  simp only [updateAgg]
  rw [(updateRoot_keep _ _).2.2.2, updateMaxEnd_maxEnd]
  congr 1
  exact (updateMinStart_keep _ _).2.2.1

lemma updateAgg_rootSpanID (a : TraceAgg) (row : SpanRow) :
    (updateAgg a row).rootSpanID
      = rootFieldStep SpanRow.span_id a.rootSpanID row := by
  simp only [updateAgg]
  rw [updateRoot_rootSpanID]
  congr 1
  rw [(updateMaxEnd_keep _ _).2.2.2.1, (updateMinStart_keep _ _).2.2.2.1]
  rfl

lemma updateAgg_rootSpanName (a : TraceAgg) (row : SpanRow) :
    (updateAgg a row).rootSpanName
      = rootFieldStep SpanRow.operation_name a.rootSpanName row := by
  simp only [updateAgg]
  rw [updateRoot_rootSpanName]
  congr 1
  rw [(updateMaxEnd_keep _ _).2.2.2.2.1, (updateMinStart_keep _ _).2.2.2.2.1]
  rfl

lemma updateAgg_rootSpanKind (a : TraceAgg) (row : SpanRow) :
    (updateAgg a row).rootSpanKind
      = rootFieldStep SpanRow.span_kind a.rootSpanKind row := by
  simp only [updateAgg]
  rw [updateRoot_rootSpanKind]
  congr 1
  rw [(updateMaxEnd_keep _ _).2.2.2.2.2, (updateMinStart_keep _ _).2.2.2.2.2]
  rfl

/-! ### Fold-level behaviour over the rows of one trace -/

lemma foldl_updateAgg_traceID (l : List SpanRow) (a : TraceAgg) :
    (l.foldl updateAgg a).traceID = a.traceID := by
  induction l generalizing a with
  | nil => rfl
  | cons r rest ih => rw [List.foldl_cons, ih, updateAgg_traceID]

lemma foldl_updateAgg_spanCount (l : List SpanRow) (a : TraceAgg) :
    (l.foldl updateAgg a).spanCount = a.spanCount + l.length := by
  induction l generalizing a with
  | nil => rfl
  | cons r rest ih =>
    rw [List.foldl_cons, ih, updateAgg_spanCount, List.length_cons]
    omega

lemma foldl_updateAgg_minStart (l : List SpanRow) (a : TraceAgg) :
    (l.foldl updateAgg a).minStart
      = l.foldl (fun m r => minStartStep m r.start_time) a.minStart := by
  induction l generalizing a with
  | nil => rfl
  | cons r rest ih => rw [List.foldl_cons, ih, updateAgg_minStart, List.foldl_cons]

lemma foldl_updateAgg_maxEnd (l : List SpanRow) (a : TraceAgg) :
    (l.foldl updateAgg a).maxEnd
      = l.foldl (fun m r => maxEndStep m r.end_time) a.maxEnd := by
  induction l generalizing a with
  | nil => rfl
  | cons r rest ih => rw [List.foldl_cons, ih, updateAgg_maxEnd, List.foldl_cons]

lemma foldl_updateAgg_rootSpanID (l : List SpanRow) (a : TraceAgg) :
    (l.foldl updateAgg a).rootSpanID
      = l.foldl (rootFieldStep SpanRow.span_id) a.rootSpanID := by
  induction l generalizing a with
  | nil => rfl
  | cons r rest ih => rw [List.foldl_cons, ih, updateAgg_rootSpanID, List.foldl_cons]

lemma foldl_updateAgg_rootSpanName (l : List SpanRow) (a : TraceAgg) :
    (l.foldl updateAgg a).rootSpanName
      = l.foldl (rootFieldStep SpanRow.operation_name) a.rootSpanName := by
  induction l generalizing a with
  | nil => rfl
  | cons r rest ih => rw [List.foldl_cons, ih, updateAgg_rootSpanName, List.foldl_cons]

lemma foldl_updateAgg_rootSpanKind (l : List SpanRow) (a : TraceAgg) :
    (l.foldl updateAgg a).rootSpanKind
      = l.foldl (rootFieldStep SpanRow.span_kind) a.rootSpanKind := by
  induction l generalizing a with
  | nil => rfl
  | cons r rest ih => rw [List.foldl_cons, ih, updateAgg_rootSpanKind, List.foldl_cons]

/-! ### First-seen order and the grouping characterization -/

lemma mem_seenStep (acc : List String) (r : SpanRow) (t : String) :
    t ∈ seenStep acc r
      ↔ t ∈ acc ∨ (rowTraceID r ≠ "" ∧ rowTraceID r ∉ acc ∧ t = rowTraceID r) := by
  rw [seenStep]
  by_cases h : rowTraceID r = "" ∨ rowTraceID r ∈ acc
  · rw [if_pos h]
    constructor
    · exact Or.inl
    · rintro (hmem | ⟨hne, hnot, rfl⟩)
      · exact hmem
      · rcases h with h | h
        · exact absurd h hne
        · exact absurd h hnot
  · rw [if_neg h]
    push_neg at h
    simp only [List.mem_append, List.mem_singleton]
    constructor
    · rintro (hmem | rfl)
      · exact Or.inl hmem
      · exact Or.inr ⟨h.1, h.2, rfl⟩
    · rintro (hmem | ⟨_, _, rfl⟩)
      · exact Or.inl hmem
      · exact Or.inr rfl

lemma mem_foldl_seenStep (rows : List SpanRow) (acc : List String) (t : String) :
    t ∈ rows.foldl seenStep acc
      ↔ t ∈ acc ∨ (t ≠ "" ∧ ∃ r ∈ rows, rowTraceID r = t) := by
  induction rows generalizing acc with
  | nil => simp
  | cons r rest ih =>
    rw [List.foldl_cons, ih, mem_seenStep]
    constructor
    · rintro ((h | ⟨hne, _, rfl⟩) | ⟨hne, r', hr', ht⟩)
      · exact Or.inl h
      · exact Or.inr ⟨hne, r, List.mem_cons_self r rest, rfl⟩
      · exact Or.inr ⟨hne, r', List.mem_cons_of_mem r hr', ht⟩
    · rintro (h | ⟨hne, r', hr', ht⟩)
      · exact Or.inl (Or.inl h)
      · rcases List.mem_cons.mp hr' with rfl | hr''
        · by_cases hacc : t ∈ acc
          · exact Or.inl (Or.inl hacc)
          · refine Or.inl (Or.inr ⟨?_, ?_, ht.symm⟩)
            · rw [ht]; exact hne
            · rw [ht]; exact hacc
        · exact Or.inr ⟨hne, r', hr'', ht⟩

lemma mem_firstSeenTraceIDs (rows : List SpanRow) (t : String) :
    t ∈ firstSeenTraceIDs rows
      ↔ t ≠ "" ∧ ∃ r ∈ rows, rowTraceID r = t := by
  rw [firstSeenTraceIDs, mem_foldl_seenStep]
  simp

lemma ne_empty_of_mem_firstSeen {rows : List SpanRow} {t : String}
    (h : t ∈ firstSeenTraceIDs rows) : t ≠ "" :=
  ((mem_firstSeenTraceIDs rows t).mp h).1

lemma nodup_foldl_seenStep (rows : List SpanRow) (acc : List String)
    (h : acc.Nodup) : (rows.foldl seenStep acc).Nodup := by
  induction rows generalizing acc with
  | nil => exact h
  | cons r rest ih =>
    rw [List.foldl_cons]
    apply ih
    rw [seenStep]
    split
    · exact h
    · rename_i hcond
      push_neg at hcond
      simp [List.nodup_append, h, hcond.2]

lemma nodup_firstSeenTraceIDs (rows : List SpanRow) :
    (firstSeenTraceIDs rows).Nodup :=
  nodup_foldl_seenStep rows [] List.nodup_nil

lemma buildTraceAggs_snoc (rows : List SpanRow) (r : SpanRow) :
    buildTraceAggs (rows ++ [r]) = insertRow (buildTraceAggs rows) r := by
  simp [buildTraceAggs, List.foldl_append]

lemma firstSeen_snoc (rows : List SpanRow) (r : SpanRow) :
    firstSeenTraceIDs (rows ++ [r]) = seenStep (firstSeenTraceIDs rows) r := by
  simp [firstSeenTraceIDs, List.foldl_append]

lemma traceRows_snoc (tid : String) (rows : List SpanRow) (r : SpanRow) :
    traceRows tid (rows ++ [r])
      = traceRows tid rows ++ (if rowTraceID r = tid then [r] else []) := by
  rw [traceRows, traceRows, List.filter_append]
  congr 1
  by_cases h : rowTraceID r = tid
  · rw [if_pos h]
    have hb : (rowTraceID r == tid) = true := beq_iff_eq.mpr h
    simp [List.filter, hb]
  · rw [if_neg h]
    have hb : (rowTraceID r == tid) = false := by
      simp [h]
    simp [List.filter, hb]

lemma aggOf_snoc_match {tid : String} {r : SpanRow} (rows : List SpanRow)
    (h : rowTraceID r = tid) :
    aggOf (rows ++ [r]) tid = updateAgg (aggOf rows tid) r := by
  rw [aggOf, traceRows_snoc, if_pos h, List.foldl_append]
  rfl

lemma aggOf_snoc_nomatch {tid : String} {r : SpanRow} (rows : List SpanRow)
    (h : rowTraceID r ≠ tid) :
    aggOf (rows ++ [r]) tid = aggOf rows tid := by
  rw [aggOf, traceRows_snoc, if_neg h, List.append_nil]
  rfl

lemma aggOf_traceID (rows : List SpanRow) (tid : String) :
    (aggOf rows tid).traceID = tid := by
  rw [aggOf, foldl_updateAgg_traceID]
  rfl

lemma traceRows_of_not_seen {rows : List SpanRow} {t : String}
    (ht : t ≠ "") (h : t ∉ firstSeenTraceIDs rows) : traceRows t rows = [] := by
  rw [mem_firstSeenTraceIDs] at h
  push_neg at h
  rw [traceRows, List.filter_eq_nil_iff]
  intro r hr
  simp only [beq_iff_eq]
  intro hcontra
  exact absurd hcontra (h ht r hr)

lemma any_map_aggOf (rows : List SpanRow) (ids : List String) (t : String) :
    ((ids.map (aggOf rows)).any (fun a => a.traceID == t)) = true ↔ t ∈ ids := by
  simp [List.any_map, Function.comp_def, aggOf_traceID, List.any_eq_true]

/-- The grouping pass of `GetTraces` produces exactly one aggregate per
distinct non-empty trace id, in first-seen order, and each trace's
aggregate is the fold of that trace's rows into a fresh aggregate. -/
lemma buildTraceAggs_eq (rows : List SpanRow) :
    buildTraceAggs rows = (firstSeenTraceIDs rows).map (aggOf rows) := by
  induction rows using List.reverseRecOn with
  | nil => rfl
  | append_singleton rows r ih =>
    rw [buildTraceAggs_snoc, firstSeen_snoc, ih]
    by_cases ht : rowTraceID r = ""
    · rw [insertRow, if_pos ht, seenStep, if_pos (Or.inl ht)]
      apply List.map_congr_left
      intro tid htid
      exact (aggOf_snoc_nomatch rows
        (fun hc => ne_empty_of_mem_firstSeen htid (hc.symm.trans ht))).symm
    · by_cases hmem : rowTraceID r ∈ firstSeenTraceIDs rows
      · rw [seenStep, if_pos (Or.inr hmem), insertRow, if_neg ht,
          if_pos ((any_map_aggOf rows _ _).mpr hmem)]
        rw [List.map_map]
        apply List.map_congr_left
        intro tid htid
        simp only [Function.comp_def, aggOf_traceID]
        by_cases htt : tid = rowTraceID r
        · rw [if_pos htt, htt]
          exact (aggOf_snoc_match rows rfl).symm
        · rw [if_neg htt]
          exact (aggOf_snoc_nomatch rows (fun hc => htt hc.symm)).symm
      · have hany : ¬ (((firstSeenTraceIDs rows).map (aggOf rows)).any
            (fun a => a.traceID == rowTraceID r)) = true := by
          rw [any_map_aggOf]
          exact hmem
        rw [seenStep, if_neg (by simp [ht, hmem]), insertRow, if_neg ht,
          if_neg hany]
        rw [List.map_append, List.map_singleton]
        congr 1
        · apply List.map_congr_left
          intro tid htid
          exact (aggOf_snoc_nomatch rows
            (fun hc => hmem (hc ▸ htid))).symm
        · rw [aggOf_snoc_match rows rfl, aggOf,
            traceRows_of_not_seen ht hmem]
          rfl

lemma minStart_fold_pos (l : List SpanRow)
    (h : ∀ r ∈ l, ∃ s, r.start_time = some s ∧ 0 < s) :
    ∀ m : Int, 0 < m →
      0 < l.foldl (fun m r => minStartStep m r.start_time) m
      ∧ l.foldl (fun m r => minStartStep m r.start_time) m ≤ m
      ∧ (l.foldl (fun m r => minStartStep m r.start_time) m = m
         ∨ l.foldl (fun m r => minStartStep m r.start_time) m ∈ startsOf l)
      ∧ ∀ s ∈ startsOf l, l.foldl (fun m r => minStartStep m r.start_time) m ≤ s := by
  induction l with
  | nil =>
    intro m hm
    exact ⟨hm, le_refl m, Or.inl rfl, by simp [startsOf]⟩
  | cons r rest ih =>
    intro m hm
    obtain ⟨s, hs, hspos⟩ := h r (List.mem_cons_self r rest)
    have hstep : minStartStep m r.start_time = if s < m then s else m := by
      rw [hs]
      simp [minStartStep, hm.ne']
    have hm' : 0 < minStartStep m r.start_time
        ∧ minStartStep m r.start_time ≤ m ∧ minStartStep m r.start_time ≤ s
        ∧ (minStartStep m r.start_time = m ∨ minStartStep m r.start_time = s) := by
      rw [hstep]
      split_ifs <;> omega
    obtain ⟨ih1, ih2, ih3, ih4⟩ :=
      ih (fun r' hr' => h r' (List.mem_cons_of_mem r hr')) _ hm'.1
    have hstarts : startsOf (r :: rest) = s :: startsOf rest := by
      simp [startsOf, List.filterMap_cons, hs]
    rw [List.foldl_cons]
    refine ⟨ih1, le_trans ih2 hm'.2.1, ?_, ?_⟩
    · rcases ih3 with h3 | h3
      · rcases hm'.2.2.2 with h4 | h4
        · exact Or.inl (h3.trans h4)
        · rw [hstarts]
          exact Or.inr (h3.trans h4 ▸ List.mem_cons_self _ _)
      · rw [hstarts]
        exact Or.inr (List.mem_cons_of_mem _ h3)
    · rw [hstarts]
      intro x hx
      rcases List.mem_cons.mp hx with rfl | hx'
      · exact le_trans ih2 hm'.2.2.1
      · exact ih4 x hx'

lemma maxEnd_fold (l : List SpanRow)
    (h : ∀ r ∈ l, ∃ e, r.end_time = some e) :
    ∀ M : Int,
      M ≤ l.foldl (fun m r => maxEndStep m r.end_time) M
      ∧ (l.foldl (fun m r => maxEndStep m r.end_time) M = M
         ∨ l.foldl (fun m r => maxEndStep m r.end_time) M ∈ endsOf l)
      ∧ ∀ e ∈ endsOf l, e ≤ l.foldl (fun m r => maxEndStep m r.end_time) M := by
  induction l with
  | nil =>
    intro M
    exact ⟨le_refl M, Or.inl rfl, by simp [endsOf]⟩
  | cons r rest ih =>
    intro M
    obtain ⟨e, he⟩ := h r (List.mem_cons_self r rest)
    have hstep : maxEndStep M r.end_time = if M < e then e else M := by
      rw [he, maxEndStep]
    have hM' : M ≤ maxEndStep M r.end_time ∧ e ≤ maxEndStep M r.end_time
        ∧ (maxEndStep M r.end_time = M ∨ maxEndStep M r.end_time = e) := by
      rw [hstep]
      split_ifs <;> omega
    obtain ⟨ih1, ih2, ih3⟩ := ih (fun r' hr' => h r' (List.mem_cons_of_mem r hr')) _
    have hends : endsOf (r :: rest) = e :: endsOf rest := by
      simp [endsOf, List.filterMap_cons, he]
    rw [List.foldl_cons]
    refine ⟨le_trans hM'.1 ih1, ?_, ?_⟩
    · rcases ih2 with h2 | h2
      · rcases hM'.2.2 with h3 | h3
        · exact Or.inl (h2.trans h3)
        · rw [hends]
          exact Or.inr (h2.trans h3 ▸ List.mem_cons_self _ _)
      · rw [hends]
        exact Or.inr (List.mem_cons_of_mem _ h2)
    · rw [hends]
      intro x hx
      rcases List.mem_cons.mp hx with rfl | hx'
      · exact le_trans hM'.2.1 ih1
      · exact ih3 x hx'

lemma rootFold_keep (proj : SpanRow → Option String) (l : List SpanRow)
    (cur : String) (h : ∀ r ∈ l, r.reference_parent_span_id.getD "" ≠ "") :
    l.foldl (rootFieldStep proj) cur = cur := by
  induction l generalizing cur with
  | nil => rfl
  | cons r rest ih =>
    rw [List.foldl_cons, rootFieldStep,
      if_neg (h r (List.mem_cons_self r rest))]
    exact ih cur (fun r' hr' => h r' (List.mem_cons_of_mem r hr'))

lemma rootRows_snoc_parent (l : List SpanRow) (r : SpanRow)
    (hp : r.reference_parent_span_id.getD "" = "") :
    rootRows (l ++ [r]) = rootRows l ++ [r] := by
  have hb : (r.reference_parent_span_id.getD "" == "") = true := beq_iff_eq.mpr hp
  simp [rootRows, List.filter_append, List.filter, hb]

lemma rootRows_snoc_noparent (l : List SpanRow) (r : SpanRow)
    (hp : ¬ r.reference_parent_span_id.getD "" = "") :
    rootRows (l ++ [r]) = rootRows l := by
  have hb : (r.reference_parent_span_id.getD "" == "") = false := by
    simp [hp]
  simp [rootRows, List.filter_append, List.filter, hb]

lemma rootFold_last (proj : SpanRow → Option String) (l : List SpanRow)
    (cur : String) (rl : SpanRow)
    (hlast : (rootRows l).getLast? = some rl)
    (hpre : ∀ r ∈ rootRows l, (proj r).isSome) :
    l.foldl (rootFieldStep proj) cur = (proj rl).getD "" := by
  induction l using List.reverseRecOn generalizing cur with
  | nil => simp [rootRows] at hlast
  | append_singleton l r ih =>
    rw [List.foldl_append, List.foldl_cons, List.foldl_nil]
    by_cases hp : r.reference_parent_span_id.getD "" = ""
    · rw [rootRows_snoc_parent l r hp] at hlast hpre
      have hr : rl = r := by
        rw [List.getLast?_concat] at hlast
        exact (Option.some_injective _ hlast).symm
      subst hr
      obtain ⟨v, hv⟩ := Option.isSome_iff_exists.mp
        (hpre rl (List.mem_append_right _ (List.mem_singleton.mpr rfl)))
      rw [rootFieldStep, if_pos hp, hv]
      rfl
    · rw [rootRows_snoc_noparent l r hp] at hlast hpre
      rw [rootFieldStep, if_neg hp]
      exact ih cur hlast hpre

/-! ## Supporting lemmas for the remaining claims -/

lemma findFirstAlertID_eq_find? (alerts : List AlertListEntry) (name : String) :
    findFirstAlertID alerts name
      = match alerts.find? (fun x => x.name == name) with
        | some a => .ok a.alert_id
        | none => .error (.notFound name) := by
  induction alerts with
  | nil => rfl
  | cons a rest ih =>
    by_cases h : a.name = name
    · have hb : (a.name == name) = true := beq_iff_eq.mpr h
      rw [findFirstAlertID, if_pos h]
      simp [List.find?, hb]
    · have hb : (a.name == name) = false := by simp [h]
      rw [findFirstAlertID, if_neg h, ih]
      simp [List.find?, hb]

lemma stringsJoin_cons_exists (c : String) (cs : List String) (sep : String) :
    ∃ t, stringsJoin (c :: cs) sep = c ++ t := by
  cases cs with
  | nil => exact ⟨"", (String.append_empty c).symm⟩
  | cons c2 cs2 =>
    refine ⟨sep ++ stringsJoin (c2 :: cs2) sep, ?_⟩
    rw [show stringsJoin (c :: c2 :: cs2) sep
        = c ++ sep ++ stringsJoin (c2 :: cs2) sep from rfl, String.append_assoc]

lemma traceRows_ne_nil {rows : List SpanRow} {tid : String}
    (h : tid ∈ firstSeenTraceIDs rows) : traceRows tid rows ≠ [] := by
  obtain ⟨-, r, hr, hrt⟩ := (mem_firstSeenTraceIDs rows tid).mp h
  intro hnil
  have hmem : r ∈ traceRows tid rows := by
    rw [traceRows, List.mem_filter]
    exact ⟨hr, beq_iff_eq.mpr hrt⟩
  rw [hnil] at hmem
  exact absurd hmem (List.not_mem_nil r)

lemma mem_of_mem_traceRows {rows : List SpanRow} {tid : String} {r : SpanRow}
    (h : r ∈ traceRows tid rows) : r ∈ rows :=
  (List.mem_filter.mp h).1

lemma mem_of_mem_rootRows {l : List SpanRow} {r : SpanRow}
    (h : r ∈ rootRows l) : r ∈ l :=
  (List.mem_filter.mp h).1

lemma minStart_from_zero (l : List SpanRow) (hne : l ≠ [])
    (h : ∀ r ∈ l, ∃ s, r.start_time = some s ∧ 0 < s) :
    l.foldl (fun m r => minStartStep m r.start_time) 0 ∈ startsOf l
    ∧ ∀ s ∈ startsOf l, l.foldl (fun m r => minStartStep m r.start_time) 0 ≤ s := by
  cases l with
  | nil => exact absurd rfl hne
  | cons r rest =>
    obtain ⟨s, hs, hpos⟩ := h r (List.mem_cons_self r rest)
    have hstep : minStartStep 0 r.start_time = s := by
      rw [hs]
      simp [minStartStep]
    have hstarts : startsOf (r :: rest) = s :: startsOf rest := by
      simp [startsOf, List.filterMap_cons, hs]
    obtain ⟨h1, h2, h3, h4⟩ :=
      minStart_fold_pos rest (fun r' hr' => h r' (List.mem_cons_of_mem r hr')) s hpos
    rw [List.foldl_cons, hstep, hstarts]
    constructor
    · rcases h3 with h3 | h3
      · rw [h3]
        exact List.mem_cons_self _ _
      · exact List.mem_cons_of_mem _ h3
    · intro x hx
      rcases List.mem_cons.mp hx with rfl | hx'
      · exact h2
      · exact h4 x hx'

lemma maxEnd_from_zero (l : List SpanRow) (hne : l ≠ [])
    (h : ∀ r ∈ l, ∃ e, r.end_time = some e ∧ 0 < e) :
    l.foldl (fun m r => maxEndStep m r.end_time) 0 ∈ endsOf l
    ∧ ∀ x ∈ endsOf l, x ≤ l.foldl (fun m r => maxEndStep m r.end_time) 0 := by
  obtain ⟨h1, h2, h3⟩ := maxEnd_fold l (fun r hr => ⟨(h r hr).choose, (h r hr).choose_spec.1⟩) 0
  refine ⟨?_, h3⟩
  rcases h2 with h2 | h2
  · exfalso
    cases l with
    | nil => exact hne rfl
    | cons r rest =>
      obtain ⟨e, he, hpos⟩ := h r (List.mem_cons_self r rest)
      have hmem : e ∈ endsOf (r :: rest) := by
        simp [endsOf, List.filterMap_cons, he]
      have := h3 e hmem
      rw [h2] at this
      omega
  · exact h2

/-! ## Claim theorems -/

/-- C1: in every generated query text (component logs, workflow logs, traces
list, spans list, span detail, alert config), each caller-controlled string
(namespace, project/environment/component ids, search phrase, log levels,
workflow run name, trace id, span id, alert search pattern) occurs only as
the image of the escaping primitives: each SQL text equals the rendering of a
fragment list in which every `lit` fragment (rendered through
`escapeSQLString`) carries a caller string, every `ident` fragment (rendered
through `quoteIdentifier`) and every `raw` fragment carries only the
configured stream name, and every `static` fragment comes from the fixed
whitelist `sqlStaticFragments` — no caller-controlled string reaches the
query text by any other path. -/
theorem c1_caller_strings_only_escaped (cp : ComponentLogsParams)
    (wp : WorkflowLogsParams) (tp : TracesQueryParams)
    (searchPattern stream : String) :
    (componentLogsSQL cp stream = renderFrags (componentLogsFrags cp stream)
      ∧ ∀ f ∈ componentLogsFrags cp stream,
          FragSafe (componentCallers cp) [stream] [] f)
    ∧ (workflowLogsSQL wp stream = renderFrags (workflowLogsFrags wp stream)
      ∧ ∀ f ∈ workflowLogsFrags wp stream,
          FragSafe (workflowCallers wp) [stream] [] f)
    ∧ (tracesListSQL tp stream = renderFrags (tracesListFrags tp stream)
      ∧ ∀ f ∈ tracesListFrags tp stream,
          FragSafe (tracesCallers tp) [] [stream] f)
    ∧ (spansListSQL tp stream = renderFrags (spansListFrags tp stream)
      ∧ ∀ f ∈ spansListFrags tp stream, FragSafe [tp.TraceID] [] [stream] f)
    ∧ (spanDetailSQL tp stream = renderFrags (spanDetailFrags tp stream)
      ∧ ∀ f ∈ spanDetailFrags tp stream,
          FragSafe [tp.TraceID, tp.SpanID] [] [stream] f)
    ∧ (alertQuerySQL searchPattern stream
        = renderFrags (alertQueryFrags searchPattern stream)
      ∧ ∀ f ∈ alertQueryFrags searchPattern stream,
          FragSafe [searchPattern] [stream] [] f) :=
  ⟨⟨componentSQL_eq_render cp stream, componentFrags_safe cp stream⟩,
   ⟨workflowSQL_eq_render wp stream, workflowFrags_safe wp stream⟩,
   ⟨tracesListSQL_eq_render tp stream, tracesListFrags_safe tp stream⟩,
   ⟨spansListSQL_eq_render tp stream, spansListFrags_safe tp stream⟩,
   ⟨spanDetailSQL_eq_render tp stream, spanDetailFrags_safe tp stream⟩,
   ⟨alertQuerySQL_eq_render searchPattern stream,
    alertQueryFrags_safe searchPattern stream⟩⟩

/-- C2: `escapeSQLString` (backslashes doubled first, then single quotes
doubled) round-trips through the reference single-quoted-literal parser for
every string, and on the 5-character string `a'b\c` yields the 7-character
string `a''b\\c`. -/
theorem c2_escape_literal_roundtrip :
    (∀ s : String, parseSingleQuotedLiteral ("'" ++ escapeSQLString s ++ "'") = some s)
    ∧ escapeSQLString "a'b\\c" = "a''b\\\\c" :=
  ⟨escapeSQLString_roundtrip, by decide⟩

/-- C3 counterexample: the claim says the backend's response body is never
included in the error value returned to the caller, but the logs module's
search client embeds the body verbatim — at status 500 with body
`secret-internal-details` the returned error message is the status text with
the body appended. -/
theorem c3_counterexample :
    logsHandleSearchStatus 500 "secret-internal-details"
      = .error ("openobserve returned status 500: " ++ "secret-internal-details") := by
  rfl

/-- C3 amended: on every non-success status both search clients return an
error carrying the status code, but only the tracing module's client omits
the response body (`"response body omitted"`); the logs module's client
includes the body verbatim in the error it returns. -/
theorem c3_error_body_policy (statusCode : Nat) (body : String)
    (h : statusCode ≠ 200) :
    tracingHandleSearchStatus statusCode body
      = .error ("openobserve returned status " ++ toString statusCode
          ++ ": response body omitted")
    ∧ logsHandleSearchStatus statusCode body
      = .error ("openobserve returned status " ++ toString statusCode
          ++ ": " ++ body) := by
  rw [tracingHandleSearchStatus, if_pos h, logsHandleSearchStatus, if_pos h]
  exact ⟨rfl, rfl⟩

/-- C3 witness: the amended statement evaluated at status 500. -/
theorem c3_error_body_policy_witness :
    (500 : Nat) ≠ 200
    ∧ (tracingHandleSearchStatus 500 "body-text"
        = .error ("openobserve returned status " ++ toString (500 : Nat)
            ++ ": response body omitted")
      ∧ logsHandleSearchStatus 500 "body-text"
        = .error ("openobserve returned status " ++ toString (500 : Nat)
            ++ ": " ++ "body-text")) :=
  ⟨by decide, c3_error_body_policy 500 "body-text" (by decide)⟩

/-- C4 counterexample: a request in which the workflow shape (non-blank
`workflowRunName`) and the component shape (`componentUid`, `projectUid`)
are populated simultaneously is not rejected with a validation error — the
dispatcher compiles it under the workflow scope. -/
theorem c4_counterexample :
    cexC4Req.SearchScope.WorkflowRunName = some "run-1"
    ∧ cexC4Req.SearchScope.ComponentUid = some "comp-1"
    ∧ queryLogsDispatch cexC4Req = .workflow (toWorkflowLogsParamsModel cexC4Req)
    ∧ (queryLogsDispatch cexC4Req).isBadRequest = false := by
  refine ⟨rfl, rfl, by decide, by decide⟩

/-- C4 amended: whenever `workflowRunName` is non-blank and the namespace is
non-blank, the request is compiled under the workflow scope regardless of
which component-scope fields are also populated — the dispatcher tries the
workflow shape first and never rejects an ambiguous request. -/
theorem c4_workflow_shape_wins (req : LogsQueryRequest)
    (hwrn : goTrimSpace (req.SearchScope.WorkflowRunName.getD "") ≠ "")
    (hns : goTrimSpace req.SearchScope.Namespace ≠ "") :
    queryLogsDispatch req = .workflow (toWorkflowLogsParamsModel req) := by
  rw [queryLogsDispatch, if_pos hwrn, if_neg hns]

/-- C4 witness: the amended statement evaluated at the ambiguous request. -/
theorem c4_workflow_shape_wins_witness :
    (goTrimSpace (cexC4Req.SearchScope.WorkflowRunName.getD "") ≠ ""
      ∧ goTrimSpace cexC4Req.SearchScope.Namespace ≠ "")
    ∧ queryLogsDispatch cexC4Req = .workflow (toWorkflowLogsParamsModel cexC4Req) :=
  ⟨⟨by decide, by decide⟩, c4_workflow_shape_wins cexC4Req (by decide) (by decide)⟩

/-- C5: for every trace, when its rows with an empty parent reference (root
candidates, two or more of them) all carry span id, name and kind, the
emitted summary's root fields come from the last such row in input order. -/
theorem c5_last_root_wins (rows : List SpanRow)
    (hfields : ∀ r ∈ rows, r.span_id.isSome ∧ r.operation_name.isSome
      ∧ r.span_kind.isSome) :
    ∀ e ∈ getTracesFromHits rows, ∀ rl : SpanRow,
      2 ≤ (rootRows (traceRows e.TraceID rows)).length →
      (rootRows (traceRows e.TraceID rows)).getLast? = some rl →
      e.RootSpanID = rl.span_id.getD "" ∧ e.RootSpanName = rl.operation_name.getD ""
        ∧ e.RootSpanKind = rl.span_kind.getD "" := by
  intro e he rl _ hlast
  rw [getTracesFromHits, buildTraceAggs_eq] at he
  obtain ⟨a, ha, rfl⟩ := List.mem_map.mp he
  obtain ⟨tid, htid, rfl⟩ := List.mem_map.mp ha
  dsimp only at hlast ⊢
  rw [aggOf_traceID] at hlast
  have hsub : ∀ r ∈ rootRows (traceRows tid rows), r ∈ rows :=
    fun r hr => mem_of_mem_traceRows (mem_of_mem_rootRows hr)
  refine ⟨?_, ?_, ?_⟩
  · rw [aggOf, foldl_updateAgg_rootSpanID]
    exact rootFold_last _ _ _ rl hlast (fun r hr => (hfields r (hsub r hr)).1)
  · rw [aggOf, foldl_updateAgg_rootSpanName]
    exact rootFold_last _ _ _ rl hlast (fun r hr => (hfields r (hsub r hr)).2.1)
  · rw [aggOf, foldl_updateAgg_rootSpanKind]
    exact rootFold_last _ _ _ rl hlast (fun r hr => (hfields r (hsub r hr)).2.2)

/-- C5 witness: on the two-root trace `[{T1,A,""},{T1,B,""}]` the hypotheses
hold, the theorem applies, and the emitted root span id is `B` (last root
wins). -/
theorem c5_last_root_wins_witness :
    (∀ r ∈ c5Rows, r.span_id.isSome ∧ r.operation_name.isSome ∧ r.span_kind.isSome)
    ∧ (∀ e ∈ getTracesFromHits c5Rows, ∀ rl : SpanRow,
        2 ≤ (rootRows (traceRows e.TraceID c5Rows)).length →
        (rootRows (traceRows e.TraceID c5Rows)).getLast? = some rl →
        e.RootSpanID = rl.span_id.getD ""
          ∧ e.RootSpanName = rl.operation_name.getD ""
          ∧ e.RootSpanKind = rl.span_kind.getD "")
    ∧ (getTracesFromHits c5Rows).map (fun e => e.RootSpanID) = ["B"] :=
  ⟨by decide, c5_last_root_wins c5Rows (by decide), by decide⟩

/-- C6 counterexample: the claim says the emitted `startTime` is the minimum
span start and `endTime` the maximum span end for every row list, but the
aggregator uses `0` as its unset sentinel: on a trace whose first row starts
at `0` (and whose ends are negative) the emitted entry has `startTime = 5`
although `0` is among the starts, and `endTime = 0` although `0` is not an
end time at all. -/
theorem c6_counterexample :
    (getTracesFromHits c6CexRows).map (fun e => (e.StartTime, e.EndTime, e.DurationNs))
      = [(5, 0, -5)]
    ∧ (0 : Int) ∈ startsOf (traceRows "T1" c6CexRows)
    ∧ ¬ ((5 : Int) ≤ 0)
    ∧ (0 : Int) ∉ endsOf (traceRows "T1" c6CexRows) := by
  refine ⟨by decide, by decide, by decide, by decide⟩

/-- C6 amended: for every list of span rows in which every row carries a
positive start and a positive end timestamp (the aggregator treats `0` as
its unset sentinel), reconstruction emits exactly one entry per distinct
non-empty trace id in first-seen order, with `SpanCount` the number of the
trace's rows, `StartTime` the minimum start, `EndTime` the maximum end,
`DurationNs = EndTime - StartTime`, and a trace whose rows all carry a
non-empty parent reference is still emitted, with empty root fields. -/
theorem c6_trace_reconstruction (rows : List SpanRow)
    (hst : ∀ r ∈ rows, ∃ s, r.start_time = some s ∧ 0 < s)
    (hen : ∀ r ∈ rows, ∃ x, r.end_time = some x ∧ 0 < x) :
    ((getTracesFromHits rows).map (fun e => e.TraceID) = firstSeenTraceIDs rows)
    ∧ (firstSeenTraceIDs rows).Nodup
    ∧ (∀ t, t ∈ firstSeenTraceIDs rows
        ↔ (t ≠ "" ∧ ∃ r ∈ rows, rowTraceID r = t))
    ∧ ∀ e ∈ getTracesFromHits rows,
        e.SpanCount = (traceRows e.TraceID rows).length
        ∧ e.StartTime ∈ startsOf (traceRows e.TraceID rows)
        ∧ (∀ s ∈ startsOf (traceRows e.TraceID rows), e.StartTime ≤ s)
        ∧ e.EndTime ∈ endsOf (traceRows e.TraceID rows)
        ∧ (∀ x ∈ endsOf (traceRows e.TraceID rows), x ≤ e.EndTime)
        ∧ e.DurationNs = e.EndTime - e.StartTime
        ∧ ((∀ r ∈ traceRows e.TraceID rows,
              r.reference_parent_span_id.getD "" ≠ "") →
            e.RootSpanID = "" ∧ e.RootSpanName = "" ∧ e.RootSpanKind = "") := by
  refine ⟨?_, nodup_firstSeenTraceIDs rows, mem_firstSeenTraceIDs rows, ?_⟩
  · rw [getTracesFromHits, buildTraceAggs_eq, List.map_map, List.map_map]
    conv_rhs => rw [← List.map_id (firstSeenTraceIDs rows)]
    apply List.map_congr_left
    intro tid _
    simp only [Function.comp_def, id_eq]
    exact aggOf_traceID rows tid
  · intro e he
    rw [getTracesFromHits, buildTraceAggs_eq] at he
    obtain ⟨a, ha, rfl⟩ := List.mem_map.mp he
    obtain ⟨tid, htid, rfl⟩ := List.mem_map.mp ha
    dsimp only
    rw [aggOf_traceID]
    have hne := traceRows_ne_nil htid
    have hstl : ∀ r ∈ traceRows tid rows, ∃ s, r.start_time = some s ∧ 0 < s :=
      fun r hr => hst r (mem_of_mem_traceRows hr)
    have henl : ∀ r ∈ traceRows tid rows, ∃ x, r.end_time = some x ∧ 0 < x :=
      fun r hr => hen r (mem_of_mem_traceRows hr)
    obtain ⟨hsmem, hsmin⟩ := minStart_from_zero (traceRows tid rows) hne hstl
    obtain ⟨hemem, hemax⟩ := maxEnd_from_zero (traceRows tid rows) hne henl
    have hms : (aggOf rows tid).minStart
        = (traceRows tid rows).foldl (fun m r => minStartStep m r.start_time) 0 := by
      rw [aggOf, foldl_updateAgg_minStart]
      rfl
    have hme : (aggOf rows tid).maxEnd
        = (traceRows tid rows).foldl (fun m r => maxEndStep m r.end_time) 0 := by
      rw [aggOf, foldl_updateAgg_maxEnd]
      rfl
    refine ⟨?_, ?_, ?_, ?_, ?_, rfl, ?_⟩
    · rw [aggOf, foldl_updateAgg_spanCount]
      simp [emptyAgg]
    · rw [hms]
      exact hsmem
    · rw [hms]
      exact hsmin
    · rw [hme]
      exact hemem
    · rw [hme]
      exact hemax
    · intro hparents
      refine ⟨?_, ?_, ?_⟩
      · rw [aggOf, foldl_updateAgg_rootSpanID]
        exact rootFold_keep _ _ _ hparents
      · rw [aggOf, foldl_updateAgg_rootSpanName]
        exact rootFold_keep _ _ _ hparents
      · rw [aggOf, foldl_updateAgg_rootSpanKind]
        exact rootFold_keep _ _ _ hparents

/-- C6 witness: the amended statement evaluated at the spec §8 example trace
(one root row and one child row, positive timestamps). -/
theorem c6_trace_reconstruction_witness :
    (∀ r ∈ c6WitRows, ∃ s, r.start_time = some s ∧ 0 < s)
    ∧ (∀ r ∈ c6WitRows, ∃ x, r.end_time = some x ∧ 0 < x)
    ∧ (((getTracesFromHits c6WitRows).map (fun e => e.TraceID)
          = firstSeenTraceIDs c6WitRows)
      ∧ (firstSeenTraceIDs c6WitRows).Nodup
      ∧ (∀ t, t ∈ firstSeenTraceIDs c6WitRows
          ↔ (t ≠ "" ∧ ∃ r ∈ c6WitRows, rowTraceID r = t))
      ∧ ∀ e ∈ getTracesFromHits c6WitRows,
          e.SpanCount = (traceRows e.TraceID c6WitRows).length
          ∧ e.StartTime ∈ startsOf (traceRows e.TraceID c6WitRows)
          ∧ (∀ s ∈ startsOf (traceRows e.TraceID c6WitRows), e.StartTime ≤ s)
          ∧ e.EndTime ∈ endsOf (traceRows e.TraceID c6WitRows)
          ∧ (∀ x ∈ endsOf (traceRows e.TraceID c6WitRows), x ≤ e.EndTime)
          ∧ e.DurationNs = e.EndTime - e.StartTime
          ∧ ((∀ r ∈ traceRows e.TraceID c6WitRows,
                r.reference_parent_span_id.getD "" ≠ "") →
              e.RootSpanID = "" ∧ e.RootSpanName = "" ∧ e.RootSpanKind = "")) := by
  have hst : ∀ r ∈ c6WitRows, ∃ s, r.start_time = some s ∧ 0 < s := by
    intro r hr
    rcases List.mem_cons.mp hr with rfl | hr'
    · exact ⟨10, rfl, by decide⟩
    · rcases List.mem_cons.mp hr' with rfl | hr''
      · exact ⟨12, rfl, by decide⟩
      · exact absurd hr'' (List.not_mem_nil r)
  have hen : ∀ r ∈ c6WitRows, ∃ x, r.end_time = some x ∧ 0 < x := by
    intro r hr
    rcases List.mem_cons.mp hr with rfl | hr'
    · exact ⟨20, rfl, by decide⟩
    · rcases List.mem_cons.mp hr' with rfl | hr''
      · exact ⟨18, rfl, by decide⟩
      · exact absurd hr'' (List.not_mem_nil r)
  exact ⟨hst, hen, c6_trace_reconstruction c6WitRows hst hen⟩

/-- C7 counterexample: the claim says the comparison is case-insensitive,
but `"Asc"` — equal to `"asc"` under the case-insensitive fold — produces
the descending clause. -/
theorem c7_counterexample :
    strToLower "Asc" = strToLower "asc"
    ∧ logsOrderClause "Asc" = " ORDER BY _timestamp DESC" := by
  refine ⟨by decide, by decide⟩

/-- C7 amended: both logs generators append the ascending order clause
exactly when `sortOrder` is one of the two literals `"ASC"`/`"asc"`
(case-sensitive whitelist), and the descending clause for every other value
(including `"Asc"`, `"bogus"` and the empty string). -/
theorem c7_sort_order_whitelist (so : String) :
    (logsOrderClause so = " ORDER BY _timestamp ASC" ↔ (so = "ASC" ∨ so = "asc"))
    ∧ (logsOrderClause so = " ORDER BY _timestamp DESC" ↔ ¬ (so = "ASC" ∨ so = "asc"))
    ∧ (∀ (p : ComponentLogsParams) (stream : String),
        ∃ base, componentLogsSQL p stream = base ++ logsOrderClause p.SortOrder)
    ∧ (∀ (q : WorkflowLogsParams) (stream : String),
        ∃ base, workflowLogsSQL q stream = base ++ logsOrderClause q.SortOrder) := by
  refine ⟨?_, ?_, fun p stream => ⟨_, rfl⟩, fun q stream => ⟨_, rfl⟩⟩
  · by_cases h : so = "ASC" ∨ so = "asc"
    · rw [logsOrderClause, if_pos h]
      exact ⟨fun _ => h, fun _ => rfl⟩
    · rw [logsOrderClause, if_neg h]
      exact ⟨fun hh => absurd hh (by decide), fun hh => absurd hh h⟩
  · by_cases h : so = "ASC" ∨ so = "asc"
    · rw [logsOrderClause, if_pos h]
      exact ⟨fun hh => absurd hh (by decide), fun hh => absurd h hh⟩
    · rw [logsOrderClause, if_neg h]
      exact ⟨fun _ => h, fun _ => rfl⟩

/-- C7 witness: the amended statement applied at `"bogus"` — the safe
default is the descending clause. -/
theorem c7_sort_order_whitelist_witness :
    logsOrderClause "bogus" = " ORDER BY _timestamp DESC" :=
  (c7_sort_order_whitelist "bogus").2.1.mpr (by decide)

/-- C8: a component-scope request whose namespace is blank after trimming is
rejected before any query is produced — the handler rejects every request
with a blank-trimmed namespace regardless of the other fields, and the
generator independently rejects the empty namespace. -/
theorem c8_blank_namespace_rejected :
    (∀ req : LogsQueryRequest, goTrimSpace req.SearchScope.Namespace = "" →
      queryLogsDispatch req = .badRequest "searchScope with a valid namespace is required")
    ∧ ∀ (p : ComponentLogsParams) (stream : String), p.Namespace = "" →
      generateComponentLogsQuery p stream
        = .error "namespace is required for component log queries" := by
  constructor
  · intro req h
    rw [queryLogsDispatch]
    by_cases hw : goTrimSpace (req.SearchScope.WorkflowRunName.getD "") ≠ ""
    · rw [if_pos hw, if_pos h]
    · rw [if_neg hw, if_pos h]
  · intro p stream h
    rw [generateComponentLogsQuery, if_pos h]

/-- C8 witness: a whitespace-only namespace is rejected by the dispatcher
and an empty namespace by the generator, with all other fields populated. -/
theorem c8_blank_namespace_rejected_witness :
    (goTrimSpace c8Req.SearchScope.Namespace = ""
      ∧ queryLogsDispatch c8Req
          = .badRequest "searchScope with a valid namespace is required")
    ∧ (c8Params.Namespace = ""
      ∧ generateComponentLogsQuery c8Params "app-logs"
          = .error "namespace is required for component log queries") :=
  ⟨⟨by decide, c8_blank_namespace_rejected.1 c8Req (by decide)⟩,
   ⟨rfl, c8_blank_namespace_rejected.2 c8Params "app-logs" rfl⟩⟩

/-- C9: resolving an alert id by name returns the `alert_id` of the first
list entry whose name matches exactly; with no match it fails with a
not-found error, a failure class distinct from the execution-error class;
in particular `"foo"` resolves to `"x1"` over `[{id:"x1",name:"foo"}]` and
`"bar"` is not found. -/
theorem c9_resolve_alert_by_name :
    (∀ (alerts : List AlertListEntry) (name : String) (a : AlertListEntry),
        alerts.find? (fun x => x.name == name) = some a →
        findFirstAlertID alerts name = .ok a.alert_id)
    ∧ (∀ (alerts : List AlertListEntry) (name : String),
        alerts.find? (fun x => x.name == name) = none →
        findFirstAlertID alerts name = .error (.notFound name))
    ∧ (∀ (name : String) (statusCode : Nat) (body : String),
        AlertLookupError.notFound name ≠ .executionError statusCode body)
    ∧ findFirstAlertID [⟨"x1", "foo"⟩] "foo" = .ok "x1"
    ∧ findFirstAlertID [⟨"x1", "foo"⟩] "bar" = .error (.notFound "bar") := by
  refine ⟨?_, ?_, ?_, by rfl, by rfl⟩
  · intro alerts name a h
    rw [findFirstAlertID_eq_find?, h]
  · intro alerts name h
    rw [findFirstAlertID_eq_find?, h]
  · intro name statusCode body h
    exact AlertLookupError.noConfusion h

/-- C9 witness: the first-match and not-found cases evaluated on the
one-entry list of the claim. -/
theorem c9_resolve_alert_by_name_witness :
    (([⟨"x1", "foo"⟩] : List AlertListEntry).find? (fun x => x.name == "foo")
        = some ⟨"x1", "foo"⟩
      ∧ findFirstAlertID [⟨"x1", "foo"⟩] "foo"
          = .ok (AlertListEntry.mk "x1" "foo").alert_id)
    ∧ (([⟨"x1", "foo"⟩] : List AlertListEntry).find? (fun x => x.name == "bar") = none
      ∧ findFirstAlertID [⟨"x1", "foo"⟩] "bar" = .error (.notFound "bar")) :=
  ⟨⟨by rfl, c9_resolve_alert_by_name.1 _ "foo" ⟨"x1", "foo"⟩ (by rfl)⟩,
   ⟨by rfl, c9_resolve_alert_by_name.2.1 _ "bar" (by rfl)⟩⟩

/-- C10: for every workflow logs request with a non-empty namespace, the
first generated condition filters `kubernetes_namespace_name` against the
fixed prefix `openchoreo-ci-` followed by the escaped namespace; the
verbatim (unprefixed) namespace predicate never appears there, and the full
generated SQL starts with the prefixed namespace predicate right after the
`WHERE`. -/
theorem c10_workflow_namespace_prefixed (p : WorkflowLogsParams)
    (h : p.Namespace ≠ "") :
    (workflowLogsConditions p).head?
      = some ("kubernetes_namespace_name = 'openchoreo-ci-"
          ++ escapeSQLString p.Namespace ++ "'")
    ∧ (workflowLogsConditions p).head?
      ≠ some ("kubernetes_namespace_name = '" ++ escapeSQLString p.Namespace ++ "'")
    ∧ ∀ stream : String, ∃ rest : String,
        (generateWorkflowLogsQuery p stream).sql
          = "SELECT * FROM " ++ quoteIdentifier stream ++ " WHERE "
            ++ "kubernetes_namespace_name = 'openchoreo-ci-"
            ++ escapeSQLString p.Namespace ++ "'" ++ rest := by
  have hhead : (workflowLogsConditions p).head?
      = some ("kubernetes_namespace_name = 'openchoreo-ci-"
          ++ escapeSQLString p.Namespace ++ "'") := by
    rw [workflowLogsConditions, if_pos h]
    simp only [List.singleton_append, List.cons_append, List.head?_cons]
  refine ⟨hhead, ?_, ?_⟩
  · rw [hhead]
    intro heq
    have hstr := Option.some_injective _ heq
    have hlen := congrArg String.length hstr
    rw [String.length_append, String.length_append,
      String.length_append, String.length_append] at hlen
    have h1 : ("kubernetes_namespace_name = 'openchoreo-ci-" : String).length = 43 := by
      decide
    have h2 : ("kubernetes_namespace_name = '" : String).length = 29 := by
      decide
    rw [h1, h2] at hlen
    omega
  · intro stream
    cases hc : workflowLogsConditions p with
    | nil => rw [hc] at hhead; exact absurd hhead (by simp)
    | cons c cs =>
      have hcc : c = "kubernetes_namespace_name = 'openchoreo-ci-"
          ++ escapeSQLString p.Namespace ++ "'" := by
        rw [hc] at hhead
        exact Option.some_injective _ hhead
      have hlen0 : (workflowLogsConditions p).length > 0 := by
        rw [hc]
        simp
      obtain ⟨t, ht⟩ := stringsJoin_cons_exists c cs " AND "
      refine ⟨t ++ logsOrderClause p.SortOrder, ?_⟩
      show workflowLogsSQL p stream = _
      have hsql : workflowLogsSQL p stream
          = (if (workflowLogsConditions p).length > 0 then
              "SELECT * FROM " ++ quoteIdentifier stream ++ " WHERE "
                ++ stringsJoin (workflowLogsConditions p) " AND "
            else "SELECT * FROM " ++ quoteIdentifier stream)
            ++ logsOrderClause p.SortOrder := rfl
      rw [hsql, if_pos hlen0, hc, ht, hcc]
      simp only [String.append_assoc]

/-- C10 witness: the statement evaluated at a request with namespace
`myns`. -/
theorem c10_workflow_namespace_prefixed_witness :
    c10Params.Namespace ≠ ""
    ∧ ((workflowLogsConditions c10Params).head?
        = some ("kubernetes_namespace_name = 'openchoreo-ci-"
            ++ escapeSQLString c10Params.Namespace ++ "'")
      ∧ (workflowLogsConditions c10Params).head?
        ≠ some ("kubernetes_namespace_name = '"
            ++ escapeSQLString c10Params.Namespace ++ "'")
      ∧ ∀ stream : String, ∃ rest : String,
          (generateWorkflowLogsQuery c10Params stream).sql
            = "SELECT * FROM " ++ quoteIdentifier stream ++ " WHERE "
              ++ "kubernetes_namespace_name = 'openchoreo-ci-"
              ++ escapeSQLString c10Params.Namespace ++ "'" ++ rest) :=
  ⟨by decide, c10_workflow_namespace_prefixed c10Params (by decide)⟩

end CommunityModules

